import Mathlib

/-!
Verification development for the `datadotenv` core: the dotenv
character-stream parser, the type-dispatching converter pipeline
(union and literal branches), the schema resolver (name lookup,
defaults, missing-variable reporting) and the timedelta mini-parser,
shallowly embedded from `src/src/__init__.py`.

Modelling conventions:
* Python strings are Lean `String`s; the parser walks `List Char`.
* Python `None` used as a dotenv value is `Option.none`.
* Python floats are modelled as exact decimals (`Dec`, a kernel-computable
  `num / 10^scale` with its value in `ℚ` given by `Dec.toRat`); every
  concrete input appearing in a theorem below stays in the range where
  float arithmetic is exact, and the final rounding of
  `datetime.timedelta` to whole microseconds is not modelled because all
  such inputs are integral in microseconds.
* Exceptions are an explicit error type: the library's own error
  classes, plus the builtin `TypeError` that CPython raises when an
  `except` clause names a non-exception (the `except NotImplemented`
  on line 944 of the source names the builtin `NotImplemented`
  constant, not `error.NotImplemented`), the builtin `AttributeError`,
  and the `RuntimeError` that PEP 479 substitutes for a
  `StopIteration` escaping a generator body.
-/

namespace Denv

/-- The error surface of the library (`_Error` in the source) together with
the builtin exceptions its code can raise. Each constructor carries the
exception message. -/
inductive PyErr where
  | cannotParse (msg : String)
  | cannotConvertToType (msg : String)
  | variableUnset (msg : String)
  | variableNotSpecified (msg : String)
  | variableMissing (msg : String)
  | variableDuplicate (msg : String)
  | notImplemented (msg : String)
  | invalidValue (msg : String)
  | typeErrorBuiltin (msg : String)
  | attributeError (msg : String)
  | runtimeError (msg : String)
deriving DecidableEq, Repr

/-- A parsed dotenv variable (`Var` in the source): `value = none` models the
Python value `None`, i.e. an unset variable. -/
structure Var where
  name : String
  value : Option String
deriving DecidableEq, Repr

/-- The errors the dotenv character parser can produce: its own
`error.CannotParse`, or the PEP 479 `RuntimeError` when `next(chars)` inside
an escape sequence hits the end of the stream. -/
inductive ParseErr where
  | cannotParse (msg : String)
  | generatorStopIteration
deriving DecidableEq, Repr

/-- Inject a parser error into the full error surface. -/
def ParseErr.toPyErr : ParseErr → PyErr
  | .cannotParse msg => .cannotParse msg
  | .generatorStopIteration => .runtimeError "generator raised StopIteration"

/-- The parser states (`_DOTENV_STATE_*` constants in the source). -/
inductive PState where
  | beforeName
  | inUnquotedName
  | inQuotedName
  | afterName
  | beforeVal
  | inUnquotedVal
  | inDoubleQuotedVal
  | inSingleQuotedVal
  | afterVal
  | inComment
deriving DecidableEq, Repr

/-- Vertical tab, written `"\v"` in the source. -/
def charVT : Char := Char.ofNat 11

/-- Form feed, written `"\f"` in the source. -/
def charFF : Char := Char.ofNat 12

/-- The line terminators of the value states: `"\n"`, `"\r"`, `"\f"`. -/
def isLineEnd (c : Char) : Bool := c = '\n' || c = '\r' || c = charFF

/-- The intra-line whitespace of the parser: `" "`, `"\t"`, `"\v"`. -/
def isBlankWs (c : Char) : Bool := c = ' ' || c = '\t' || c = charVT

/-- First character of an unquoted name: `A-Z` or `a-z`. -/
def isNameStart (c : Char) : Bool :=
  ('A' ≤ c && c ≤ 'Z') || ('a' ≤ c && c ≤ 'z')

/-- Later characters of an unquoted name: `_`, `A-Z`, `0-9`, `a-z`. -/
def isNameChar (c : Char) : Bool :=
  c = '_' || ('A' ≤ c && c ≤ 'Z') || ('0' ≤ c && c ≤ '9') || ('a' ≤ c && c ≤ 'z')

/-- The escape table of double-quoted values (source lines 1142-1166):
the ten escapes and their replacement characters; `none` for every other
escaped character. -/
def doubleQuotedEscape (c : Char) : Option Char :=
  if c = '"' then some '"'
  else if c = 'n' then some '\n'
  else if c = '\\' then some '\\'
  else if c = 't' then some '\t'
  else if c = '\'' then some '\''
  else if c = 'r' then some '\r'
  else if c = 'v' then some charVT
  else if c = 'f' then some charFF
  else if c = 'b' then some (Char.ofNat 8)
  else if c = 'a' then some (Char.ofNat 7)
  else none

/-- The escape table of single-quoted values and quoted names: only `\'`
and `\\`. -/
def singleQuotedEscape (c : Char) : Option Char :=
  if c = '\'' then some '\''
  else if c = '\\' then some '\\'
  else none

/-- The character-at-a-time state machine of
`_Parse._iter_vars_from_dotenv_chars`. Arguments mirror the Python local
state: the remaining characters, the state register and the two accumulator
buffers. The result is the list of `Var`s the generator yields, paired with
the error that ends it, if any (a lazily consumed generator yields its
prefix before raising; the resolver model consumes this pair). -/
def runParser : List Char → PState → String → String → List Var × Option ParseErr
  | [], st, name, val =>
    if st = .inUnquotedVal || st = .afterVal then ([⟨name, some val⟩], none)
    else if st = .beforeVal then ([⟨name, none⟩], none)
    else if st = .beforeName then ([], none)
    else ([], some (.cannotParse "Input ended with unterminated name or value!"))
  | c :: cs, st, name, val =>
    match st with
    | .beforeName =>
      if c = '\n' || c = '\r' || c = ' ' || c = '\t' || c = charVT || c = charFF then
        runParser cs .beforeName name val
      else if c = '#' then runParser cs .inComment name val
      else if c = '\'' then runParser cs .inQuotedName name val
      else if isNameStart c then runParser cs .inUnquotedName (name.push c) val
      else
        ([], some (.cannotParse
          ("Unquoted dotenv variable names may only start with letters (A-Za-z), found '"
            ++ c.toString ++ "'!")))
    | .inUnquotedName =>
      if c = '=' then runParser cs .beforeVal name val
      else if isBlankWs c then runParser cs .afterName name val
      else if isNameChar c then runParser cs .inUnquotedName (name.push c) val
      else
        ([], some (.cannotParse
          ("Unquoted dotenv variable names may only contain letters, number and underscores (A-Za-z_), found '"
            ++ c.toString ++ "'!")))
    | .beforeVal =>
      if isLineEnd c then
        let rest := runParser cs .beforeName "" val
        (⟨name, none⟩ :: rest.1, rest.2)
      else if c = '"' then runParser cs .inDoubleQuotedVal name val
      else if c = '\'' then runParser cs .inSingleQuotedVal name val
      else if c = '#' then
        let rest := runParser cs .inComment "" val
        (⟨name, some ""⟩ :: rest.1, rest.2)
      else if !isBlankWs c then runParser cs .inUnquotedVal name (val.push c)
      else runParser cs .beforeVal name val
    | .inUnquotedVal =>
      if isLineEnd c then
        let rest := runParser cs .beforeName "" ""
        (⟨name, some val⟩ :: rest.1, rest.2)
      else if isBlankWs c then runParser cs .afterVal name val
      else runParser cs .inUnquotedVal name (val.push c)
    | .inDoubleQuotedVal =>
      if c = '"' then runParser cs .afterVal name val
      else if c = '\\' then
        match cs with
        | [] => ([], some .generatorStopIteration)
        | c2 :: cs2 =>
          match doubleQuotedEscape c2 with
          | some ec => runParser cs2 .inDoubleQuotedVal name (val.push ec)
          | none =>
            ([], some (.cannotParse
              ("Invalid escape sequence '\\" ++ c2.toString ++ "' inside double-quoted value!")))
      else runParser cs .inDoubleQuotedVal name (val.push c)
    | .inSingleQuotedVal =>
      if c = '\'' then runParser cs .afterVal name val
      else if c = '\\' then
        match cs with
        | [] => ([], some .generatorStopIteration)
        | c2 :: cs2 =>
          match singleQuotedEscape c2 with
          | some ec => runParser cs2 .inSingleQuotedVal name (val.push ec)
          | none =>
            ([], some (.cannotParse
              ("Invalid escaped sequence '\\" ++ c2.toString ++ "' inside single-quoted value!")))
      else runParser cs .inSingleQuotedVal name (val.push c)
    | .afterVal =>
      if isLineEnd c then
        let rest := runParser cs .beforeName "" ""
        (⟨name, some val⟩ :: rest.1, rest.2)
      else if c = '#' then
        let rest := runParser cs .inComment "" ""
        (⟨name, some val⟩ :: rest.1, rest.2)
      else if !isBlankWs c then
        ([], some (.cannotParse
          ("Invalid non-whitespace character '" ++ c.toString ++ "' after value ended!")))
      else runParser cs .afterVal name val
    | .inComment =>
      if isLineEnd c then runParser cs .beforeName name val
      else runParser cs .inComment name val
    | .afterName =>
      if c = '=' then runParser cs .beforeVal name val
      else if !isBlankWs c then
        ([], some (.cannotParse
          ("Invalid non-whitespace character '" ++ c.toString ++ "' after name and before '='!")))
      else runParser cs .afterName name val
    | .inQuotedName =>
      if c = '\'' then runParser cs .afterName name val
      else if c = '\\' then
        match cs with
        | [] => ([], some .generatorStopIteration)
        | c2 :: cs2 =>
          match singleQuotedEscape c2 with
          | some ec => runParser cs2 .inQuotedName (name.push ec) val
          | none =>
            ([], some (.cannotParse
              ("Invalid escaped sequence '\\" ++ c2.toString ++ "' inside single-quoted name!")))
      else runParser cs .inQuotedName (name.push c) val

/-- `parse.dotenv_from_chars_iter` applied to a string: the yielded `Var`s
paired with the terminating error, if any. -/
def parseDotenv (s : String) : List Var × Option ParseErr :=
  runParser s.data .beforeName "" ""

/-- Fully consuming the parser generator (as `list(...)` would): the `Var`
list on success, the raised error otherwise. -/
def parseDotenvE (s : String) : Except ParseErr (List Var) :=
  match parseDotenv s with
  | (_, some e) => .error e
  | (vars, none) => .ok vars

/-! ### Python values, type descriptors and primitive conversion -/

/-- An exact decimal number `num / 10^scale`. Python floats reached by this
code are decimal literals and products/sums of such with integers, all exact
in this form for the inputs of the claims below; `Dec` keeps the arithmetic
kernel-computable (`ℚ` normalises through `Nat.gcd`, which does not
reduce). `toRat` gives its rational value. -/
structure Dec where
  num : Int
  scale : Nat
deriving DecidableEq, Repr

/-- The rational value a decimal denotes. -/
def Dec.toRat (d : Dec) : ℚ := (d.num : ℚ) / (10 : ℚ) ^ d.scale

/-- An integer as a decimal. -/
def Dec.ofInt (n : Int) : Dec := ⟨n, 0⟩

/-- Exact product of decimals. -/
def Dec.mul (a b : Dec) : Dec := ⟨a.num * b.num, a.scale + b.scale⟩

/-- Exact sum of decimals. -/
def Dec.add (a b : Dec) : Dec :=
  ⟨a.num * (10 : Int) ^ b.scale + b.num * (10 : Int) ^ a.scale, a.scale + b.scale⟩

/-- Scaling by a power of ten (the exponent part of a float literal). -/
def Dec.mulPow10 (d : Dec) : Int → Dec
  | .ofNat k => ⟨d.num * (10 : Int) ^ k, d.scale⟩
  | .negSucc k => ⟨d.num, d.scale + (k + 1)⟩

/-- Numeric equality of decimals (cross multiplication). -/
def Dec.eqb (a b : Dec) : Bool :=
  decide (a.num * (10 : Int) ^ b.scale = b.num * (10 : Int) ^ a.scale)

theorem Dec.toRat_ofInt (n : Int) : (Dec.ofInt n).toRat = (n : ℚ) := by
  simp [Dec.toRat, Dec.ofInt]

theorem Dec.toRat_mul (a b : Dec) : (a.mul b).toRat = a.toRat * b.toRat := by
  simp only [Dec.toRat, Dec.mul, pow_add]
  push_cast
  field_simp
  try ring

theorem Dec.toRat_add (a b : Dec) : (a.add b).toRat = a.toRat + b.toRat := by
  have h1 : ((10 : ℚ) ^ a.scale) ≠ 0 := by positivity
  have h2 : ((10 : ℚ) ^ b.scale) ≠ 0 := by positivity
  simp only [Dec.toRat, Dec.add, pow_add]
  push_cast
  field_simp
  try ring

theorem Dec.eqb_iff (a b : Dec) : a.eqb b = true ↔ a.toRat = b.toRat := by
  have h1 : ((10 : ℚ) ^ a.scale) ≠ 0 := by positivity
  have h2 : ((10 : ℚ) ^ b.scale) ≠ 0 := by positivity
  rw [Dec.eqb, decide_eq_true_iff, Dec.toRat, Dec.toRat, div_eq_div_iff h1 h2]
  constructor
  · intro h
    exact_mod_cast congrArg (fun z : Int => (z : ℚ)) h
  · intro h
    exact_mod_cast h

/-- The Python values the conversion pipeline produces for the schemas of
this development: strings, ints, floats (as exact decimals), bools and
`None`. -/
inductive PyVal where
  | str (s : String)
  | int (n : Int)
  | float (d : Dec)
  | bool (b : Bool)
  | none
deriving DecidableEq, Repr

/-- Python `==` on such values: equality within one type, plus the numeric
tower (`42 == 42.0`, `True == 1`). -/
def pyEq : PyVal → PyVal → Bool
  | .str a, .str b => decide (a = b)
  | .int a, .int b => decide (a = b)
  | .bool a, .bool b => decide (a = b)
  | .float a, .float b => a.eqb b
  | .none, .none => true
  | .int a, .float d => (Dec.ofInt a).eqb d
  | .float d, .int a => d.eqb (Dec.ofInt a)
  | .bool b, .int a => decide ((if b then (1 : Int) else 0) = a)
  | .int a, .bool b => decide (a = (if b then (1 : Int) else 0))
  | .bool b, .float d => (Dec.ofInt (if b then 1 else 0)).eqb d
  | .float d, .bool b => d.eqb (Dec.ofInt (if b then 1 else 0))
  | _, _ => false

/-- Non-composite type descriptors as the dispatcher of
`_choose_validator_and_converter` distinguishes them. `noneAnnot` is the
bare annotation `None` (line 690 checks `isinstance(type_, types.NoneType)`,
which only the value `None` satisfies); the class `NoneType` itself — as it
appears among `typing.get_args` of a union — matches no dispatch branch and
is `other "NoneType"`. `other name` is any class the dispatcher has no
handler for. -/
inductive PyBaseType where
  | str
  | int
  | float
  | bool
  | noneAnnot
  | other (name : String)
deriving DecidableEq, Repr

/-- `__name__` of the class a base descriptor stands for. -/
def PyBaseType.pyName : PyBaseType → String
  | .str => "str"
  | .int => "int"
  | .float => "float"
  | .bool => "bool"
  | .noneAnnot => "NoneType"
  | .other n => n

/-- Python `type(value)` of a literal option. `type(None)` is the class
`NoneType`, for which the dispatcher has no handler. -/
def typeOfVal : PyVal → PyBaseType
  | .str _ => .str
  | .int _ => .int
  | .float _ => .float
  | .bool _ => .bool
  | .none => .other "NoneType"

/-- Declared-type descriptors for the schemas of this development: a base
type, a union of base-typed branches (`int | str`, `Union[...]`) or a
`Literal[...]` of concrete options. The source additionally allows deeper
nesting and list/tuple/path/temporal types; the claims below never touch
those. -/
inductive PyType where
  | base (b : PyBaseType)
  | union (branches : List PyBaseType)
  | literal (options : List PyVal)
deriving DecidableEq, Repr

/-- `repr`-style rendering of a value, for error messages. -/
def PyVal.pyRepr : PyVal → String
  | .str s => "'" ++ s ++ "'"
  | .int n => toString n
  | .float d => toString d.toRat
  | .bool b => if b then "True" else "False"
  | .none => "None"

/-- f-string rendering of a type annotation, for error messages. -/
def PyType.pyRepr : PyType → String
  | .base b => "<class '" ++ b.pyName ++ "'>"
  | .union bs => String.intercalate " | " (bs.map PyBaseType.pyName)
  | .literal os => "typing.Literal[" ++ String.intercalate ", " (os.map PyVal.pyRepr) ++ "]"

/-- Value of a decimal digit. -/
def digitVal (c : Char) : Nat := c.toNat - '0'.toNat

/-- The number a list of decimal digits denotes. -/
def digitsToNat (ds : List Char) : Nat := ds.foldl (fun n c => 10 * n + digitVal c) 0

/-- Whitespace `int()`/`float()` strip from both ends. -/
def isPyStripWs (c : Char) : Bool :=
  c = ' ' || c = '\t' || c = '\n' || c = '\r' || c = charVT || c = charFF

/-- Digit run with Python's underscore rule: single underscores strictly
between digits. Accumulates onto `acc`; `none` on any other character. -/
def pyIntDigitsGo (acc : Nat) : List Char → Option Nat
  | [] => some acc
  | '_' :: c :: r => if c.isDigit then pyIntDigitsGo (10 * acc + digitVal c) r else Option.none
  | ['_'] => Option.none
  | c :: r => if c.isDigit then pyIntDigitsGo (10 * acc + digitVal c) r else Option.none

/-- A nonempty digit run (with underscores) making up a whole token. -/
def pyIntDigits : List Char → Option Nat
  | c :: r => if c.isDigit then pyIntDigitsGo (digitVal c) r else Option.none
  | [] => Option.none

/-- Python `int(s)` on decimal strings: strip whitespace, optional sign,
digits with underscores. -/
def pyInt (s : String) : Option Int :=
  let cs := ((s.data.dropWhile isPyStripWs).reverse.dropWhile isPyStripWs).reverse
  match cs with
  | '-' :: r => (pyIntDigits r).map (fun n => -(n : Int))
  | '+' :: r => (pyIntDigits r).map (fun n => (n : Int))
  | r => (pyIntDigits r).map (fun n => (n : Int))

/-- Mantissa of a float literal: `digits [. digits*]` or `. digits+`,
returning its exact value (`ip + fp/10^|fp|` as a decimal) and the
unconsumed tail. -/
def pyFloatMantissa (cs : List Char) : Option (Dec × List Char) :=
  let ip := cs.takeWhile Char.isDigit
  let r1 := cs.dropWhile Char.isDigit
  match r1 with
  | '.' :: r2 =>
    let fp := r2.takeWhile Char.isDigit
    let r3 := r2.dropWhile Char.isDigit
    if ip.isEmpty && fp.isEmpty then Option.none
    else
      some (⟨(digitsToNat ip : Int) * (10 : Int) ^ fp.length + (digitsToNat fp : Int),
             fp.length⟩, r3)
  | _ => if ip.isEmpty then Option.none else some (⟨(digitsToNat ip : Int), 0⟩, r1)

/-- Exponent suffix of a float literal: empty, or `e`/`E`, optional sign and
digits consuming the whole tail. -/
def pyFloatExp : List Char → Option Int
  | [] => some 0
  | c :: r =>
    if c = 'e' || c = 'E' then
      match r with
      | '-' :: r2 =>
        let ds := r2.takeWhile Char.isDigit
        if ds.isEmpty || !(r2.dropWhile Char.isDigit).isEmpty then Option.none
        else some (-(digitsToNat ds : Int))
      | '+' :: r2 =>
        let ds := r2.takeWhile Char.isDigit
        if ds.isEmpty || !(r2.dropWhile Char.isDigit).isEmpty then Option.none
        else some (digitsToNat ds : Int)
      | r2 =>
        let ds := r2.takeWhile Char.isDigit
        if ds.isEmpty || !(r2.dropWhile Char.isDigit).isEmpty then Option.none
        else some (digitsToNat ds : Int)
    else Option.none

/-- Python `float(s)` on the numeric grammar
`-?[0-9]*\.?[0-9]+([eE][-+]?[0-9]+)?` (plus a leading `+`), as an exact
decimal; `none` where `float()` raises `ValueError`. -/
def pyFloat (s : String) : Option Dec :=
  let cs := ((s.data.dropWhile isPyStripWs).reverse.dropWhile isPyStripWs).reverse
  let signAndRest : Int × List Char :=
    match cs with
    | '-' :: r => (-1, r)
    | '+' :: r => (1, r)
    | r => (1, r)
  match pyFloatMantissa signAndRest.2 with
  | Option.none => Option.none
  | some (m, rest) =>
    (pyFloatExp rest).map (fun e => Dec.mulPow10 ⟨signAndRest.1 * m.num, m.scale⟩ e)

/-- f-string rendering of a `str | None` value (`None` prints as `None`). -/
def valueRepr : Option String → String
  | some s => s
  | Option.none => "None"

/-- `_validate_and_convert_str`. -/
def convertStr (var : Var) : Except PyErr PyVal :=
  match var.value with
  | Option.none =>
    .error (.variableUnset ("Dotenv variable '" ++ var.name ++ "' was expected to be set!"))
  | some s => .ok (.str s)

/-- `_validate_and_convert_bool`. -/
def convertBool (var : Var) : Except PyErr PyVal :=
  match convertStr var with
  | .error e => .error e
  | .ok v =>
    match v with
    | .str s =>
      if s = "true" || s = "True" then .ok (.bool true)
      else if s = "false" || s = "False" then .ok (.bool false)
      else
        .error (.cannotConvertToType
          ("Failed to convert dotenv variable " ++ var.name ++ "='" ++ valueRepr var.value
            ++ "' to type 'bool'!"))
    | _ => .ok v

/-- `_validate_and_convert_int`. -/
def convertInt (var : Var) : Except PyErr PyVal :=
  match convertStr var with
  | .error e => .error e
  | .ok v =>
    match v with
    | .str s =>
      match pyInt s with
      | some n => .ok (.int n)
      | Option.none =>
        .error (.cannotConvertToType
          ("Failed to convert dotenv variable " ++ var.name ++ "='" ++ valueRepr var.value
            ++ "' to type 'int'!"))
    | _ => .ok v

/-- `_validate_and_convert_float`. -/
def convertFloat (var : Var) : Except PyErr PyVal :=
  match convertStr var with
  | .error e => .error e
  | .ok v =>
    match v with
    | .str s =>
      match pyFloat s with
      | some d => .ok (.float d)
      | Option.none =>
        .error (.cannotConvertToType
          ("Failed to convert dotenv variable " ++ var.name ++ "='" ++ valueRepr var.value
            ++ "' to type 'float'!"))
    | _ => .ok v

/-- `_validate_and_convert_unset` (the message's misspelling is the
source's). -/
def convertUnset (var : Var) : Except PyErr PyVal :=
  match var.value with
  | Option.none => .ok .none
  | some s =>
    .error (.cannotConvertToType
      ("Expected dotenv varibale '" ++ var.name ++ "' to be unset, not '" ++ s ++ "'!"))

/-! ### Field specifications and the converter dispatch -/

/-- One field's compiled spec (`_VarSpec`), restricted to the attributes the
claims exercise: the custom converter/validator hooks are `None` and the
sequence/file-path options are unused by the modelled types. -/
structure VarSpec where
  dataclassFieldName : String
  dotenvVarName : String
  ignoreCase : Bool
  defaultVal : Option PyVal
  fieldType : PyType
deriving Repr

instance : Inhabited VarSpec := ⟨⟨"", "", false, Option.none, .base .str⟩⟩

/-- Message of the `error.NotImplemented` the dispatcher raises for an
unhandled type (source lines 735-738). -/
def notImplMsg (spec : VarSpec) : String :=
  "No handling for type of dataclass field '" ++ spec.dataclassFieldName ++ ": "
    ++ spec.fieldType.pyRepr ++ "'!"

/-- The base-type rows of `_choose_validator_and_converter`'s dispatch
(`bool`/`int`/`float`/`None`-annotation/`str`), with the final `else` that
raises `error.NotImplemented` for everything unhandled. -/
def dispatchBase (spec : VarSpec) : PyBaseType → Var → Except PyErr PyVal
  | .bool => convertBool
  | .int => convertInt
  | .float => convertFloat
  | .noneAnnot => convertUnset
  | .str => convertStr
  | .other _ => fun _ => .error (.notImplemented (notImplMsg spec))

/-- `type(env_var.value).__name__`: the parser only ever supplies a string
or `None`. -/
def typeNameOfValue : Option String → String
  | some _ => "str"
  | Option.none => "NoneType"

/-- The `CannotConvertToType` message of a failed union conversion,
naming every attempted branch (source lines 920-923). -/
def unionFailMsg (branches : List PyBaseType) (var : Var) : String :=
  "Expected dotenv variable '" ++ var.name ++ "' to be one of "
    ++ String.intercalate ", " (branches.map (fun b => "'" ++ b.pyName ++ "'"))
    ++ ", not '" ++ typeNameOfValue var.value ++ "'!"

/-- Branch loop of `_create_validate_and_convert_union`: each branch's
converter in declared order inside `try: return ... except Exception`, so
every branch failure — `error.NotImplemented` included — selects the next
branch; when no branch is left the aggregate `CannotConvertToType` is
raised. -/
def convertUnionGo (spec : VarSpec) (branches allBranches : List PyBaseType) (var : Var) :
    Except PyErr PyVal :=
  match branches with
  | [] => .error (.cannotConvertToType (unionFailMsg allBranches var))
  | b :: rest =>
    match dispatchBase spec b var with
    | .ok v => .ok v
    | .error _ => convertUnionGo spec rest allBranches var

/-- What `_create_validate_and_convert_literal` raises when every option
compared unequal without an exception: building `options_str` evaluates
`option.__name__` on the first option, a plain value, so a nonempty option
list raises `AttributeError`; only `Literal[]` would reach the
`CannotConvertToType`. -/
def literalNoMatch (allOptions : List PyVal) (var : Var) : PyErr :=
  match allOptions with
  | [] =>
    .cannotConvertToType
      ("Expected dotenv variable '" ++ var.name ++ "' to be one of , not '"
        ++ valueRepr var.value ++ "'!")
  | o :: _ =>
    .attributeError ("'" ++ (typeOfVal o).pyName ++ "' object has no attribute '__name__'")

/-- The message of the builtin `TypeError` CPython raises when an `except`
clause names something that is not an exception class. -/
def catchNonExceptionMsg : String :=
  "catching classes that do not inherit from BaseException is not allowed"

/-- Branch loop of `_create_validate_and_convert_literal`: convert with the
converter for `type(option)` and compare with Python `==`. Its first
`except` clause is `except NotImplemented` — the builtin `NotImplemented`
constant, not `error.NotImplemented` — so the moment any exception leaves a
branch, evaluating that clause raises the builtin `TypeError`, and the
`except error.Error: pass` fallback is unreachable. -/
def convertLiteralGo (spec : VarSpec) (options allOptions : List PyVal) (var : Var) :
    Except PyErr PyVal :=
  match options with
  | [] => .error (literalNoMatch allOptions var)
  | o :: rest =>
    match dispatchBase spec (typeOfVal o) var with
    | .ok v => if pyEq o v then .ok o else convertLiteralGo spec rest allOptions var
    | .error _ => .error (.typeErrorBuiltin catchNonExceptionMsg)

/-- `_choose_validator_and_converter` over the modelled type descriptors
(no field-level custom hooks, no registered custom converters). -/
def chooseValidatorAndConverter (spec : VarSpec) : PyType → Var → Except PyErr PyVal
  | .base b => dispatchBase spec b
  | .union bs => convertUnionGo spec bs bs
  | .literal os => convertLiteralGo spec os os

/-! ### Schema resolver -/

/-- The casing options of the `datadotenv(...)` entry point. -/
inductive Casing where
  | upper
  | lower
  | preserve
  | ignore
deriving DecidableEq, Repr

/-- Python `str.upper()` on ASCII strings (list-based so that it
kernel-reduces; `String.map` does not). -/
def pyUpper (s : String) : String := ⟨s.data.map Char.toUpper⟩

/-- Python `str.lower()` on ASCII strings (list-based so that it
kernel-reduces; `String.map` does not). -/
def pyLower (s : String) : String := ⟨s.data.map Char.toLower⟩

/-- `_transform_case`. -/
def transformCase : Casing → String → String
  | .upper, s => pyUpper s
  | .lower, s => pyLower s
  | .preserve, s => s
  | .ignore, s => pyLower s

/-- How `_Datadotenv.__call__` builds one `_VarSpec` from a dataclass field
(source lines 72-90): the dotenv name is the case-transformed field name and
the target ignores case exactly when the policy is `"ignore"`. -/
def mkVarSpec (casing : Casing) (fieldName : String) (ftype : PyType)
    (dflt : Option PyVal) : VarSpec :=
  { dataclassFieldName := fieldName
    dotenvVarName := transformCase casing fieldName
    ignoreCase := casing = .ignore
    defaultVal := dflt
    fieldType := ftype }

/-- A `_Spec`: the target dataclass name, its field specs in declaration
order, and the completeness policy. -/
structure SpecCfg where
  dataclsName : String
  specs : List VarSpec
  allowIncomplete : Bool
deriving Repr

/-- The case-sensitive name map of `_VarSpecRepository` as a lookup
function: a Python dict built by inserting `dotenv_var_name ↦ idx` for every
spec whose target is case-sensitive, later insertions overwriting. -/
def csMap (specs : List VarSpec) : String → Option Nat :=
  specs.enum.foldl
    (fun m p =>
      if p.2.ignoreCase then m
      else fun k => if k = p.2.dotenvVarName then some p.1 else m k)
    (fun _ => Option.none)

/-- The case-insensitive map: `dotenv_var_name.lower() ↦ idx` for every spec
whose target ignores case. -/
def ciMap (specs : List VarSpec) : String → Option Nat :=
  specs.enum.foldl
    (fun m p =>
      if p.2.ignoreCase then fun k => if k = pyLower p.2.dotenvVarName then some p.1 else m k
      else m)
    (fun _ => Option.none)

/-- `_VarSpecRepository.find_spec_idx_for_var_name`: exact case-sensitive
lookup first, then the lower-cased name against the case-insensitive map;
`none` models raising `VariableNotSpecified`. -/
def findSpecIdxForVarName (specs : List VarSpec) (name : String) : Option Nat :=
  match csMap specs name with
  | some i => some i
  | Option.none => ciMap specs (pyLower name)

/-- Per-parse resolution state: the keyword-argument dict being accumulated
for the dataclass constructor, and `_VarSpecResolveGroup._resolved` as a map
from spec index to flag. -/
structure ResolveState where
  kwargs : String → Option PyVal
  resolved : Nat → Bool

/-- The fresh state `from_chars_iter` starts with. -/
def initState : ResolveState := ⟨fun _ => Option.none, fun _ => false⟩

/-- The message of `VariableNotSpecified` (source lines 454-456). -/
def notSpecifiedMsg (name : String) : String :=
  "No field for dotenv variable '" ++ name ++ "' is specified in the dataclass!"

/-- The per-`Var` loop of `_Spec.from_chars_iter`: look the name up, mark
the found index resolved, convert with the dispatcher and store the value
under the field name (overwriting any earlier value); an unknown name is
skipped under `allow_incomplete` and raises `VariableNotSpecified`
otherwise; a conversion error aborts. -/
def resolveVars (cfg : SpecCfg) : List Var → ResolveState → Except PyErr ResolveState
  | [], st => .ok st
  | v :: rest, st =>
    match findSpecIdxForVarName cfg.specs v.name with
    | Option.none =>
      if cfg.allowIncomplete then resolveVars cfg rest st
      else .error (.variableNotSpecified (notSpecifiedMsg v.name))
    | some idx =>
      let spec := cfg.specs.getD idx default
      let st1 : ResolveState := ⟨st.kwargs, fun j => if j = idx then true else st.resolved j⟩
      match chooseValidatorAndConverter spec spec.fieldType v with
      | .error e => .error e
      | .ok value =>
        resolveVars cfg rest
          ⟨fun k => if k = spec.dataclassFieldName then some value else st1.kwargs k,
           st1.resolved⟩

/-- The specs paired with their indices starting at `n` (the shape in which
`zip(specs, resolved)` walks them). -/
def zipIdxFrom (n : Nat) : List VarSpec → List (Nat × VarSpec)
  | [] => []
  | s :: ss => (n, s) :: zipIdxFrom (n + 1) ss

/-- The defaults pass of `from_chars_iter` (source lines 258-265): walk the
indexed specs in order; a spec still unresolved whose field declares a
default gets the default stored under its field name and is marked
resolved — via `mark_as_resolved`, which looks the spec's own dotenv name
up again and marks the index that lookup returns (`none` would raise
`VariableNotSpecified`). -/
def applyDefaultsGo (cfg : SpecCfg) :
    List (Nat × VarSpec) → ResolveState → Except PyErr ResolveState
  | [], st => .ok st
  | (i, spec) :: rest, st =>
    if st.resolved i then applyDefaultsGo cfg rest st
    else
      match spec.defaultVal with
      | Option.none => applyDefaultsGo cfg rest st
      | some d =>
        match findSpecIdxForVarName cfg.specs spec.dotenvVarName with
        | Option.none => .error (.variableNotSpecified (notSpecifiedMsg spec.dotenvVarName))
        | some j =>
          applyDefaultsGo cfg rest
            ⟨fun k => if k = spec.dataclassFieldName then some d else st.kwargs k,
             fun j' => if j' = j then true else st.resolved j'⟩

/-- The specs still unresolved after the defaults pass, in declaration order
(`get_unresolved_specs` re-run for `_raise_on_missing`). -/
def missingSpecs (cfg : SpecCfg) (st : ResolveState) : List VarSpec :=
  ((List.range cfg.specs.length).filter (fun i => st.resolved i = false)).map
    (fun i => cfg.specs.getD i default)

/-- The `VariableMissing` message of `_Spec._raise_on_missing`, naming the
dataclass field identifiers and the expected dotenv variable names. -/
def missingMsg (dataclsName : String) (missing : List VarSpec) : String :=
  "The dataclass '" ++ dataclsName ++ "' contains the fields "
    ++ String.intercalate ", " (missing.map (fun s => "'" ++ s.dataclassFieldName ++ "'"))
    ++ ", but the variables "
    ++ String.intercalate ", " (missing.map (fun s => "'" ++ s.dotenvVarName ++ "'"))
    ++ " are not set in the dotenv!"

/-- The tail of `from_chars_iter` once the variable stream is exhausted:
apply defaults, then fail with `VariableMissing` when any spec is still
unresolved, else hand the accumulated kwargs to the dataclass constructor
(the kwargs dict stands in for the constructed record). -/
def finishResolution (cfg : SpecCfg) (st : ResolveState) :
    Except PyErr (String → Option PyVal) :=
  match applyDefaultsGo cfg (zipIdxFrom 0 cfg.specs) st with
  | .error e => .error e
  | .ok st' =>
    let missing := missingSpecs cfg st'
    if missing.isEmpty then .ok st'.kwargs
    else .error (.variableMissing (missingMsg cfg.dataclsName missing))

/-- `_Spec.from_chars_iter` on a string: parse lazily, resolve each yielded
`Var` in order, surface a parse error only once the yielded prefix has been
consumed without error, then apply defaults and the missing check. -/
def fromChars (cfg : SpecCfg) (s : String) : Except PyErr (String → Option PyVal) :=
  let parsed := parseDotenv s
  match resolveVars cfg parsed.1 initState with
  | .error e => .error e
  | .ok st =>
    match parsed.2 with
    | some e => .error e.toPyErr
    | Option.none => finishResolution cfg st

/-! ### Timedelta mini-parser (`_Parse.timedelta`) -/

/-- Whitespace of the timedelta tokenizer: space, tab, vertical tab. -/
def isTdWs (c : Char) : Bool := c = ' ' || c = '\t' || c = charVT

/-- Characters the number loop of the tokenizer accepts. -/
def isTdNumChar (c : Char) : Bool :=
  ('0' ≤ c && c ≤ '9') || c = '-' || c = '.' || c = 'e' || c = 'E'

/-- Characters the unit loop of the tokenizer accepts. -/
def isTdUnitChar (c : Char) : Bool :=
  c = 's' || c = 'm' || c = 'h' || c = 'd' || c = 'w' || c = 'u' || c = 'μ'

/-- `blank_err` of `_Parse.timedelta`. -/
def tdBlankErr : PyErr := .cannotParse "Got blank input for timedelta!"

/-- `default_err` of `_Parse.timedelta`. -/
def tdDefaultErr (s : String) : PyErr :=
  .cannotParse
    ("Invalid timedelta input '" ++ s
      ++ "'. Input must contain a sequence of at least one number, followed by 'w', 'd', 'h', 'm', 's' or 'μs'/'us' where units cannot duplicate and larger ones must occur before smaller ones, optionally delimited by whitespaces, tabs or single commas!")

/-- After the leading-whitespace skip of one tokenizer round. -/
def tdRest1 (cs : List Char) : List Char := cs.dropWhile isTdWs

/-- The number token read in that round. -/
def tdNumTok (cs : List Char) : List Char := (tdRest1 cs).takeWhile isTdNumChar

/-- What is left after the number token. -/
def tdRest2 (cs : List Char) : List Char := (tdRest1 cs).dropWhile isTdNumChar

/-- The unit token read in that round. -/
def tdUnitTok (cs : List Char) : List Char := (tdRest2 cs).takeWhile isTdUnitChar

/-- What is left after the unit token. -/
def tdRest3 (cs : List Char) : List Char := (tdRest2 cs).dropWhile isTdUnitChar

/-- What is left after the trailing-whitespace skip of that round. -/
def tdRest4 (cs : List Char) : List Char := (tdRest3 cs).dropWhile isTdWs

/-- `dropWhile` never lengthens a list (termination helper for the
tokenizer loop). -/
theorem lengthDropWhileLe (p : Char → Bool) :
    ∀ l : List Char, (l.dropWhile p).length ≤ l.length
  | [] => le_refl _
  | a :: l => by
    by_cases h : p a
    · rw [List.dropWhile_cons, if_pos h]
      exact Nat.le_succ_of_le (lengthDropWhileLe p l)
    · rw [List.dropWhile_cons, if_neg h]

/-- `dropWhile` strictly shortens a list whose `takeWhile` is nonempty. -/
theorem lengthDropWhileLt (p : Char → Bool) :
    ∀ l : List Char, l.takeWhile p ≠ [] → (l.dropWhile p).length < l.length
  | [], h => absurd rfl h
  | a :: l, h => by
    by_cases hp : p a
    · rw [List.dropWhile_cons, if_pos hp]
      exact Nat.lt_succ_of_le (lengthDropWhileLe p l)
    · rw [List.takeWhile_cons, if_neg hp] at h
      exact absurd rfl h

/-- One full tokenizer round strictly consumes input when both its tokens
are nonempty (termination helper). -/
theorem tdRest4Lt (cs : List Char) (h2 : tdNumTok cs ≠ []) (h4 : tdUnitTok cs ≠ []) :
    (tdRest4 cs).length < cs.length := by
  have a1 : (tdRest1 cs).length ≤ cs.length := lengthDropWhileLe _ _
  have a2 : (tdRest2 cs).length < (tdRest1 cs).length := lengthDropWhileLt _ _ h2
  have a3 : (tdRest3 cs).length < (tdRest2 cs).length := lengthDropWhileLt _ _ h4
  have a4 : (tdRest4 cs).length ≤ (tdRest3 cs).length := lengthDropWhileLe _ _
  omega

/-- The tokenizer loop of `_Parse.timedelta` (source lines 1261-1339): skip
whitespace, read a number token, read a unit token, skip whitespace, skip a
single comma; exhaustion at a token boundary ends the loop; an empty number
or unit token raises `default_err`, as does exhaustion immediately after a
comma (`last_was_comma`). -/
def tdTokenizeGo (s : String) (cs : List Char) (tokens : List String) :
    Except PyErr (List String) :=
  if _h1 : tdRest1 cs = [] then .ok tokens
  else if h2 : tdNumTok cs = [] then .error (tdDefaultErr s)
  else if _h3 : tdRest2 cs = [] then .ok (tokens ++ [(tdNumTok cs).asString])
  else if h4 : tdUnitTok cs = [] then .error (tdDefaultErr s)
  else if _h5 : tdRest3 cs = [] then
    .ok (tokens ++ [(tdNumTok cs).asString] ++ [(tdUnitTok cs).asString])
  else if _h6 : tdRest4 cs = [] then
    .ok (tokens ++ [(tdNumTok cs).asString] ++ [(tdUnitTok cs).asString])
  else if (tdRest4 cs).head? = some ',' then
    if (tdRest4 cs).tail = [] then .error (tdDefaultErr s)
    else
      tdTokenizeGo s (tdRest4 cs).tail
        (tokens ++ [(tdNumTok cs).asString] ++ [(tdUnitTok cs).asString])
  else
    tdTokenizeGo s (tdRest4 cs)
      (tokens ++ [(tdNumTok cs).asString] ++ [(tdUnitTok cs).asString])
termination_by cs.length
decreasing_by
  · have := tdRest4Lt cs h2 h4
    have ht : (tdRest4 cs).tail.length ≤ (tdRest4 cs).length := by
      cases tdRest4 cs with
      | nil => simp
      | cons a l => simp
    omega
  · exact tdRest4Lt cs h2 h4

/-- The per-unit accumulators of `_Parse.timedelta`'s parsing stage. -/
structure TdAcc where
  weeks : Dec
  days : Dec
  hours : Dec
  minutes : Dec
  seconds : Dec
  milliseconds : Dec
  microseconds : Dec
deriving DecidableEq, Repr

/-- The token-parsing loop of `_Parse.timedelta` (source lines 1341-1401):
alternate between reading a number (`float(token)`) and a unit keyword; each
unit requires a strictly larger magnitude than everything before it
(`ord >= ORD` raises `default_err`) and stores the pending number. A number
left pending when the tokens run out is silently dropped — the loop ends
with no check on `num`. -/
def tdParseTokens (s : String) : List String → Option Dec → Nat → TdAcc → Except PyErr TdAcc
  | [], _, _, acc => .ok acc
  | tok :: rest, Option.none, ord, acc =>
    match pyFloat tok with
    | some q => tdParseTokens s rest (some q) ord acc
    | Option.none => .error (tdDefaultErr s)
  | tok :: rest, some q, ord, acc =>
    if tok = "s" then
      if 5 ≤ ord then .error (tdDefaultErr s)
      else tdParseTokens s rest Option.none 5 {acc with seconds := q}
    else if tok = "m" then
      if 4 ≤ ord then .error (tdDefaultErr s)
      else tdParseTokens s rest Option.none 4 {acc with minutes := q}
    else if tok = "h" then
      if 3 ≤ ord then .error (tdDefaultErr s)
      else tdParseTokens s rest Option.none 3 {acc with hours := q}
    else if tok = "d" then
      if 2 ≤ ord then .error (tdDefaultErr s)
      else tdParseTokens s rest Option.none 2 {acc with days := q}
    else if tok = "w" then
      if 1 ≤ ord then .error (tdDefaultErr s)
      else tdParseTokens s rest Option.none 1 {acc with weeks := q}
    else if tok = "ms" then
      if 6 ≤ ord then .error (tdDefaultErr s)
      else tdParseTokens s rest Option.none 6 {acc with milliseconds := q}
    else if tok = "us" || tok = "μs" then
      if 7 ≤ ord then .error (tdDefaultErr s)
      else tdParseTokens s rest Option.none 7 {acc with microseconds := q}
    else .error (tdDefaultErr s)

/-- The exact duration `datetime.timedelta(weeks=..., ..., microseconds=...)`
denotes, in microseconds (the inputs of the claims below are integral, so
timedelta's rounding to whole microseconds never fires). -/
def tdTotalMicroseconds (acc : TdAcc) : Dec :=
  ((((((acc.weeks.mul (.ofInt 604800000000)).add
    (acc.days.mul (.ofInt 86400000000))).add
    (acc.hours.mul (.ofInt 3600000000))).add
    (acc.minutes.mul (.ofInt 60000000))).add
    (acc.seconds.mul (.ofInt 1000000))).add
    (acc.milliseconds.mul (.ofInt 1000))).add
    acc.microseconds

/-- `_Parse.timedelta`: tokenize, reject an empty token list (`blank_err`),
parse the tokens, return the accumulated duration (in microseconds). -/
def parseTimedelta (s : String) : Except PyErr Dec :=
  match tdTokenizeGo s s.data [] with
  | .error e => .error e
  | .ok tokens =>
    if tokens.isEmpty then .error tdBlankErr
    else
      match tdParseTokens s tokens Option.none 0
          ⟨.ofInt 0, .ofInt 0, .ofInt 0, .ofInt 0, .ofInt 0, .ofInt 0, .ofInt 0⟩ with
      | .error e => .error e
      | .ok acc => .ok (tdTotalMicroseconds acc)

/-! ### Concrete schemas and helper predicates used by the claims -/

/-- The spec of a field `literal_var: Literal["foo", 42]` (as in the
source's test `test_instantiates_dataclass_with_literal_types`). -/
def literalFooOr42Spec : VarSpec :=
  ⟨"literal_var", "LITERAL_VAR", false, Option.none, .literal [.str "foo", .int 42]⟩

/-- The spec of a field `int_or_unset: int | None`: `typing.get_args` turns
the annotation into the classes `int` and `NoneType`, and the dispatcher has
no branch for the class `NoneType`. -/
def unionNoneIntSpec : VarSpec :=
  ⟨"int_or_unset", "INT_OR_UNSET", false, Option.none, .union [.other "NoneType", .int]⟩

/-- The spec of a field `bool_or_int: bool | int`. -/
def unionBoolIntSpec : VarSpec :=
  ⟨"bool_or_int", "BOOL_OR_INT", false, Option.none, .union [.bool, .int]⟩

/-- A dataclass `Config` with the single required field `api_key: str` and
no default. -/
def requiredCfg : SpecCfg :=
  ⟨"Config", [⟨"api_key", "API_KEY", false, Option.none, .base .str⟩], false⟩

/-- Two specs whose lookup keys collide modulo case: a case-sensitive
`API_KEY` and a case-insensitive `api_key`. -/
def demoSpecs : List VarSpec :=
  [⟨"api_key", "API_KEY", false, Option.none, .base .str⟩,
   ⟨"other", "api_key", true, Option.none, .base .str⟩]

/-- The spec `datadotenv(..., case="ignore")` builds for a field
`mixed_case: str`. -/
def mixedCaseSpec : VarSpec := mkVarSpec .ignore "mixed_case" (.base .str) Option.none

/-- A dataclass `Config` with the single field `x: int`. -/
def dupCfg : SpecCfg :=
  ⟨"Config", [⟨"x", "X", false, Option.none, .base .int⟩], false⟩

/-- A dataclass `Config` with a defaulted field `a` and a required field
`b`. -/
def defaultsCfg : SpecCfg :=
  ⟨"Config",
   [⟨"a", "A", false, some (.str "fallback"), .base .str⟩,
    ⟨"b", "B", false, Option.none, .base .str⟩],
   false⟩

/-- The specs that are, on entry to the post-stream phase, unresolved with
no declared default: exactly the ones `_raise_on_missing` will name. -/
def entryMissing (cfg : SpecCfg) (st : ResolveState) : List VarSpec :=
  ((List.range cfg.specs.length).filter
    (fun i => !st.resolved i && !((cfg.specs.getD i default).defaultVal).isSome)).map
    (fun i => cfg.specs.getD i default)

/-- Whether an error is the (never-raised) `VariableDuplicate`. -/
def PyErr.isVariableDuplicateB : PyErr → Bool
  | .variableDuplicate _ => true
  | _ => false

end Denv

deriving instance DecidableEq for Except

namespace Denv

/-! ### Parser lemmas -/

/-- A name-start character is distinct from any character outside both
letter ranges. -/
theorem isNameStartNe (c : Char) (h : isNameStart c = true) (x : Char)
    (hx : (decide ('A' ≤ x ∧ x ≤ 'Z') || decide ('a' ≤ x ∧ x ≤ 'z')) = false) : c ≠ x := by
  rintro rfl
  rw [isNameStart] at h
  simp only [Bool.or_eq_true, Bool.and_eq_true, decide_eq_true_eq] at h
  simp only [Bool.or_eq_false_iff, decide_eq_false_iff_not, not_and] at hx
  rcases h with ⟨h1, h2⟩ | ⟨h1, h2⟩
  · exact hx.1 h1 h2
  · exact hx.2 h1 h2

/-- A name-start character is a name character. -/
theorem isNameCharOfStart (c : Char) (h : isNameStart c = true) : isNameChar c = true := by
  rw [isNameStart] at h
  rw [isNameChar]
  simp only [Bool.or_eq_true] at h ⊢
  rcases h with h | h
  · exact Or.inl (Or.inl (Or.inr h))
  · exact Or.inr h

/-- A name-start character is not parser whitespace. -/
theorem isBlankWsOfStart (c : Char) (h : isNameStart c = true) : isBlankWs c = false := by
  have h1 := isNameStartNe c h ' ' (by decide)
  have h2 := isNameStartNe c h '\t' (by decide)
  have h3 := isNameStartNe c h charVT (by decide)
  simp [isBlankWs, h1, h2, h3]

/-- Input consisting of name characters only keeps the machine in
`InUnquotedName`, so exhaustion there is the unterminated-input failure:
a bare name is never emitted. -/
theorem runParserNameStuck :
    ∀ (cs : List Char), (∀ c ∈ cs, isNameStart c = true) → ∀ (name val : String),
      runParser cs .inUnquotedName name val
        = ([], some (.cannotParse "Input ended with unterminated name or value!"))
  | [], _, name, val => by simp [runParser]
  | c :: cs, h, name, val => by
    have hc := h c (List.mem_cons_self c cs)
    have hcs : ∀ c' ∈ cs, isNameStart c' = true :=
      fun c' hc' => h c' (List.mem_cons_of_mem _ hc')
    simp only [runParser]
    rw [if_neg (by simpa using (isNameStartNe c hc '=' (by decide))),
        if_neg (by simp [isBlankWsOfStart c hc]),
        if_pos (isNameCharOfStart c hc)]
    exact runParserNameStuck cs hcs _ _

/-- Inside a quoted name, characters other than the quote and the backslash
are consumed; exhaustion there is the unterminated-input failure. -/
theorem runParserQuotedNameStuck :
    ∀ (cs : List Char), (∀ c ∈ cs, c ≠ '\'' ∧ c ≠ '\\') → ∀ (name val : String),
      runParser cs .inQuotedName name val
        = ([], some (.cannotParse "Input ended with unterminated name or value!"))
  | [], _, name, val => by simp [runParser]
  | c :: cs, h, name, val => by
    have hc := h c (List.mem_cons_self c cs)
    have hcs : ∀ c' ∈ cs, c' ≠ '\'' ∧ c' ≠ '\\' :=
      fun c' hc' => h c' (List.mem_cons_of_mem _ hc')
    rw [runParser.eq_def]
    dsimp only
    rw [if_neg (by simpa using hc.1), if_neg (by simpa using hc.2)]
    exact runParserQuotedNameStuck cs hcs _ _

/-- Inside a double-quoted value, characters other than the quote and the
backslash are consumed; exhaustion there is the unterminated-input
failure. -/
theorem runParserDoubleQuotedStuck :
    ∀ (cs : List Char), (∀ c ∈ cs, c ≠ '"' ∧ c ≠ '\\') → ∀ (name val : String),
      runParser cs .inDoubleQuotedVal name val
        = ([], some (.cannotParse "Input ended with unterminated name or value!"))
  | [], _, name, val => by simp [runParser]
  | c :: cs, h, name, val => by
    have hc := h c (List.mem_cons_self c cs)
    have hcs : ∀ c' ∈ cs, c' ≠ '"' ∧ c' ≠ '\\' :=
      fun c' hc' => h c' (List.mem_cons_of_mem _ hc')
    rw [runParser.eq_def]
    dsimp only
    rw [if_neg (by simpa using hc.1), if_neg (by simpa using hc.2)]
    exact runParserDoubleQuotedStuck cs hcs _ _

/-- Inside a single-quoted value, characters other than the quote and the
backslash are consumed; exhaustion there is the unterminated-input
failure. -/
theorem runParserSingleQuotedStuck :
    ∀ (cs : List Char), (∀ c ∈ cs, c ≠ '\'' ∧ c ≠ '\\') → ∀ (name val : String),
      runParser cs .inSingleQuotedVal name val
        = ([], some (.cannotParse "Input ended with unterminated name or value!"))
  | [], _, name, val => by simp [runParser]
  | c :: cs, h, name, val => by
    have hc := h c (List.mem_cons_self c cs)
    have hcs : ∀ c' ∈ cs, c' ≠ '\'' ∧ c' ≠ '\\' :=
      fun c' hc' => h c' (List.mem_cons_of_mem _ hc')
    rw [runParser.eq_def]
    dsimp only
    rw [if_neg (by simpa using hc.1), if_neg (by simpa using hc.2)]
    exact runParserSingleQuotedStuck cs hcs _ _

/-- A comment with no line terminator swallows its characters, and
exhaustion inside it is also the unterminated-input failure (the
end-of-input handler accepts only the two value states, `BeforeValue` and
`BeforeName`). -/
theorem runParserCommentStuck :
    ∀ (cs : List Char), (∀ c ∈ cs, isLineEnd c = false) → ∀ (name val : String),
      runParser cs .inComment name val
        = ([], some (.cannotParse "Input ended with unterminated name or value!"))
  | [], _, name, val => by simp [runParser]
  | c :: cs, h, name, val => by
    have hc := h c (List.mem_cons_self c cs)
    have hcs : ∀ c' ∈ cs, isLineEnd c' = false :=
      fun c' hc' => h c' (List.mem_cons_of_mem _ hc')
    simp only [runParser]
    rw [if_neg (by simp [hc])]
    exact runParserCommentStuck cs hcs _ _

end Denv

namespace Denv

/-- C4: When the character stream ends, the dotenv parser emits the pending
`Var` if it is in the unquoted-value or after-value state, emits
`Var(name, unset)` if it is in the before-value state, and for every other
non-initial terminal state — including input that is only a name with no
`=`, and input ending inside a quoted name or value — it fails with
`CannotParse` instead of silently dropping the pending name. -/
theorem claim4EndOfInput :
    (∀ name val : String,
      runParser [] .inUnquotedVal name val = ([⟨name, some val⟩], Option.none)
      ∧ runParser [] .afterVal name val = ([⟨name, some val⟩], Option.none)
      ∧ runParser [] .beforeVal name val = ([⟨name, Option.none⟩], Option.none)
      ∧ runParser [] .beforeName name val = ([], Option.none))
    ∧ (∀ (st : PState) (name val : String),
        st ≠ .beforeName → st ≠ .beforeVal → st ≠ .inUnquotedVal → st ≠ .afterVal →
        runParser [] st name val
          = ([], some (.cannotParse "Input ended with unterminated name or value!")))
    ∧ (∀ s : String, s.data ≠ [] → (∀ c ∈ s.data, isNameStart c = true) →
        parseDotenvE s = .error (.cannotParse "Input ended with unterminated name or value!"))
    ∧ (∀ s : String, (∀ c ∈ s.data, c ≠ '\'' ∧ c ≠ '\\') →
        parseDotenvE ("'" ++ s)
          = .error (.cannotParse "Input ended with unterminated name or value!"))
    ∧ (∀ s : String, (∀ c ∈ s.data, c ≠ '"' ∧ c ≠ '\\') →
        parseDotenvE ("KEY=\"" ++ s)
          = .error (.cannotParse "Input ended with unterminated name or value!"))
    ∧ (∀ s : String, (∀ c ∈ s.data, c ≠ '\'' ∧ c ≠ '\\') →
        parseDotenvE ("KEY='" ++ s)
          = .error (.cannotParse "Input ended with unterminated name or value!"))
    ∧ parseDotenvE "KEY=val" = .ok [⟨"KEY", some "val"⟩]
    ∧ parseDotenvE "KEY=val " = .ok [⟨"KEY", some "val"⟩]
    ∧ parseDotenvE "KEY=" = .ok [⟨"KEY", Option.none⟩] := by
  refine ⟨?_, ?_, ?_, ?_, ?_, ?_, by decide, by decide, by decide⟩
  · intro name val
    refine ⟨rfl, rfl, rfl, rfl⟩
  · intro st name val h1 h2 h3 h4
    cases st <;> simp_all [runParser]
  · intro s hne hall
    rcases hs : s.data with _ | ⟨c, cs⟩
    · exact absurd hs hne
    · have hc : isNameStart c = true := hall c (hs ▸ List.mem_cons_self c cs)
      have hcs : ∀ c' ∈ cs, isNameStart c' = true :=
        fun c' h' => hall c' (hs ▸ List.mem_cons_of_mem _ h')
      have hws : (c = '\n' || c = '\r' || c = ' ' || c = '\t' || c = charVT || c = charFF)
          = false := by
        simp [isNameStartNe c hc '\n' (by decide), isNameStartNe c hc '\r' (by decide),
              isNameStartNe c hc ' ' (by decide), isNameStartNe c hc '\t' (by decide),
              isNameStartNe c hc charVT (by decide), isNameStartNe c hc charFF (by decide)]
      have hrun : runParser s.data .beforeName "" ""
          = ([], some (.cannotParse "Input ended with unterminated name or value!")) := by
        rw [hs, runParser.eq_def]
        dsimp only
        rw [if_neg (by simp [hws]), if_neg (by simpa using isNameStartNe c hc '#' (by decide)),
            if_neg (by simpa using isNameStartNe c hc '\'' (by decide)), if_pos hc]
        exact runParserNameStuck cs hcs _ _
      rw [parseDotenvE, parseDotenv, hrun]
  · intro s hall
    have hd : (("'" ++ s) : String).data = '\'' :: s.data := by
      simp [String.data_append]
    have hrun : runParser ('\'' :: s.data) .beforeName "" ""
        = ([], some (.cannotParse "Input ended with unterminated name or value!")) := by
      rw [runParser.eq_def]
      dsimp only
      rw [if_neg (by decide), if_neg (by decide), if_pos rfl]
      exact runParserQuotedNameStuck s.data hall _ _
    rw [parseDotenvE, parseDotenv, hd, hrun]
  · intro s hall
    have hd : (("KEY=\"" ++ s) : String).data = 'K' :: 'E' :: 'Y' :: '=' :: '"' :: s.data := by
      simp [String.data_append]
    have hrun : runParser ('K' :: 'E' :: 'Y' :: '=' :: '"' :: s.data) .beforeName "" ""
        = ([], some (.cannotParse "Input ended with unterminated name or value!")) := by
      rw [runParser.eq_def]
      dsimp only
      rw [if_neg (by decide), if_neg (by decide), if_neg (by decide), if_pos (by decide)]
      rw [runParser.eq_def]
      dsimp only
      rw [if_neg (by decide), if_neg (by decide), if_pos (by decide)]
      rw [runParser.eq_def]
      dsimp only
      rw [if_neg (by decide), if_neg (by decide), if_pos (by decide)]
      rw [runParser.eq_def]
      dsimp only
      rw [if_pos rfl]
      rw [runParser.eq_def]
      dsimp only
      rw [if_neg (by decide), if_pos rfl]
      exact runParserDoubleQuotedStuck s.data hall _ _
    rw [parseDotenvE, parseDotenv, hd, hrun]
  · intro s hall
    have hd : (("KEY='" ++ s) : String).data = 'K' :: 'E' :: 'Y' :: '=' :: '\'' :: s.data := by
      simp [String.data_append]
    have hrun : runParser ('K' :: 'E' :: 'Y' :: '=' :: '\'' :: s.data) .beforeName "" ""
        = ([], some (.cannotParse "Input ended with unterminated name or value!")) := by
      rw [runParser.eq_def]
      dsimp only
      rw [if_neg (by decide), if_neg (by decide), if_neg (by decide), if_pos (by decide)]
      rw [runParser.eq_def]
      dsimp only
      rw [if_neg (by decide), if_neg (by decide), if_pos (by decide)]
      rw [runParser.eq_def]
      dsimp only
      rw [if_neg (by decide), if_neg (by decide), if_pos (by decide)]
      rw [runParser.eq_def]
      dsimp only
      rw [if_pos rfl]
      rw [runParser.eq_def]
      dsimp only
      rw [if_neg (by decide), if_neg (by decide), if_pos rfl]
      exact runParserSingleQuotedStuck s.data hall _ _
    rw [parseDotenvE, parseDotenv, hd, hrun]

/-- Witness for C4: the bare name `KEY` with no `=` is an
unterminated-input failure, via the theorem's third conjunct. -/
theorem claim4EndOfInputWitness :
    parseDotenvE "KEY" = .error (.cannotParse "Input ended with unterminated name or value!") :=
  claim4EndOfInput.2.2.1 "KEY" (by decide) (by decide)

end Denv

namespace Denv

/-- C5: the parser distinguishes unset from empty string: `KEY=` at
end-of-line or end-of-input yields `Var("KEY", unset)`; `KEY=""` yields
`Var("KEY", "")`; and a `#` where a value would begin emits `Var("KEY", "")`
before entering the comment (the pair form shows the emission happens even
when the trailing comment itself ends unterminated). -/
theorem claim5UnsetVsEmpty :
    parseDotenvE "KEY=" = .ok [⟨"KEY", Option.none⟩]
    ∧ parseDotenvE "KEY=\n" = .ok [⟨"KEY", Option.none⟩]
    ∧ parseDotenvE "KEY=\"\"" = .ok [⟨"KEY", some ""⟩]
    ∧ parseDotenvE "KEY=#c\nK2=v" = .ok [⟨"KEY", some ""⟩, ⟨"K2", some "v"⟩]
    ∧ (∀ s : String, (∀ c ∈ s.data, isLineEnd c = false) →
        parseDotenv ("KEY=#" ++ s)
          = ([⟨"KEY", some ""⟩],
             some (.cannotParse "Input ended with unterminated name or value!"))) := by
  refine ⟨by decide, by decide, by decide, by decide, ?_⟩
  intro s hall
  have hd : (("KEY=#" ++ s) : String).data = 'K' :: 'E' :: 'Y' :: '=' :: '#' :: s.data := by
    simp [String.data_append]
  have hstep : runParser ('K' :: 'E' :: 'Y' :: '=' :: '#' :: s.data) .beforeName "" ""
      = (⟨"KEY", some ""⟩ :: (runParser s.data .inComment "" "").1,
         (runParser s.data .inComment "" "").2) := by
    rw [runParser.eq_def]
    dsimp only
    rw [if_neg (by decide), if_neg (by decide), if_neg (by decide), if_pos (by decide)]
    rw [runParser.eq_def]
    dsimp only
    rw [if_neg (by decide), if_neg (by decide), if_pos (by decide)]
    rw [runParser.eq_def]
    dsimp only
    rw [if_neg (by decide), if_neg (by decide), if_pos (by decide)]
    rw [runParser.eq_def]
    dsimp only
    rw [if_pos rfl]
    rw [runParser.eq_def]
    dsimp only
    rw [if_neg (by decide), if_neg (by decide), if_neg (by decide), if_pos rfl]
    rfl
  rw [parseDotenv, hd, hstep, runParserCommentStuck s.data hall]

/-- Witness for C5: `KEY=#` followed by one ordinary comment character. -/
theorem claim5UnsetVsEmptyWitness :
    parseDotenv "KEY=#c"
      = ([⟨"KEY", some ""⟩],
         some (.cannotParse "Input ended with unterminated name or value!")) :=
  claim5UnsetVsEmpty.2.2.2.2 "c" (by decide)

end Denv

namespace Denv

/-- C6: inside a double-quoted value exactly the ten escapes
`\" \n \\ \t \' \r \v \f \b \a` map to their corresponding characters and
every other escape fails with `CannotParse`; inside a single-quoted value
only `\'` and `\\` are accepted and every other escape fails; in particular
`KEY="a\nb"` parses to a value with a literal newline and `KEY='a\\b'`
parses to `a\b`. -/
theorem claim6Escapes :
    parseDotenvE "KEY=\"a\\nb\"" = .ok [⟨"KEY", some "a\nb"⟩]
    ∧ parseDotenvE "KEY='a\\\\b'" = .ok [⟨"KEY", some "a\\b"⟩]
    ∧ parseDotenvE "KEY=\"\\\"\"" = .ok [⟨"KEY", some "\""⟩]
    ∧ parseDotenvE "KEY=\"\\n\"" = .ok [⟨"KEY", some "\n"⟩]
    ∧ parseDotenvE "KEY=\"\\\\\"" = .ok [⟨"KEY", some "\\"⟩]
    ∧ parseDotenvE "KEY=\"\\t\"" = .ok [⟨"KEY", some "\t"⟩]
    ∧ parseDotenvE "KEY=\"\\'\"" = .ok [⟨"KEY", some "'"⟩]
    ∧ parseDotenvE "KEY=\"\\r\"" = .ok [⟨"KEY", some "\r"⟩]
    ∧ parseDotenvE "KEY=\"\\v\"" = .ok [⟨"KEY", some charVT.toString⟩]
    ∧ parseDotenvE "KEY=\"\\f\"" = .ok [⟨"KEY", some charFF.toString⟩]
    ∧ parseDotenvE "KEY=\"\\b\"" = .ok [⟨"KEY", some (Char.ofNat 8).toString⟩]
    ∧ parseDotenvE "KEY=\"\\a\"" = .ok [⟨"KEY", some (Char.ofNat 7).toString⟩]
    ∧ parseDotenvE "KEY='\\''" = .ok [⟨"KEY", some "'"⟩]
    ∧ parseDotenvE "KEY='\\\\'" = .ok [⟨"KEY", some "\\"⟩]
    ∧ (∀ c : Char, c ∉ ['"', 'n', '\\', 't', '\'', 'r', 'v', 'f', 'b', 'a'] →
        parseDotenvE ("KEY=\"\\" ++ String.singleton c ++ "\"")
          = .error (.cannotParse
              ("Invalid escape sequence '\\" ++ c.toString ++ "' inside double-quoted value!")))
    ∧ (∀ c : Char, c ∉ ['\'', '\\'] →
        parseDotenvE ("KEY='\\" ++ String.singleton c ++ "'")
          = .error (.cannotParse
              ("Invalid escaped sequence '\\" ++ c.toString ++ "' inside single-quoted value!"))) := by
  refine ⟨by decide, by decide, by decide, by decide, by decide, by decide, by decide, by decide,
          by decide, by decide, by decide, by decide, by decide, by decide, ?_, ?_⟩
  · intro c hc
    simp only [List.mem_cons, List.not_mem_nil, or_false, not_or] at hc
    obtain ⟨h1, h2, h3, h4, h5, h6, h7, h8, h9, h10⟩ := hc
    have hdq : doubleQuotedEscape c = Option.none := by
      rw [doubleQuotedEscape, if_neg h1, if_neg h2, if_neg h3, if_neg h4, if_neg h5,
          if_neg h6, if_neg h7, if_neg h8, if_neg h9, if_neg h10]
    have hsing : (String.singleton c).data = [c] := rfl
    have hd : (("KEY=\"\\" ++ String.singleton c ++ "\"") : String).data
        = 'K' :: 'E' :: 'Y' :: '=' :: '"' :: '\\' :: c :: '"' :: [] := by
      simp [String.data_append, hsing]
    have hrun : runParser ('K' :: 'E' :: 'Y' :: '=' :: '"' :: '\\' :: c :: '"' :: [])
        .beforeName "" ""
        = ([], some (.cannotParse
            ("Invalid escape sequence '\\" ++ c.toString ++ "' inside double-quoted value!"))) := by
      rw [runParser.eq_def]
      dsimp only
      rw [if_neg (by decide), if_neg (by decide), if_neg (by decide), if_pos (by decide)]
      rw [runParser.eq_def]
      dsimp only
      rw [if_neg (by decide), if_neg (by decide), if_pos (by decide)]
      rw [runParser.eq_def]
      dsimp only
      rw [if_neg (by decide), if_neg (by decide), if_pos (by decide)]
      rw [runParser.eq_def]
      dsimp only
      rw [if_pos rfl]
      rw [runParser.eq_def]
      dsimp only
      rw [if_neg (by decide), if_pos rfl]
      rw [runParser.eq_def]
      dsimp only
      rw [if_neg (by decide), if_pos rfl]
      rw [hdq]
    rw [parseDotenvE, parseDotenv, hd, hrun]
  · intro c hc
    simp only [List.mem_cons, List.not_mem_nil, or_false, not_or] at hc
    obtain ⟨h1, h2⟩ := hc
    have hsq : singleQuotedEscape c = Option.none := by
      rw [singleQuotedEscape, if_neg h1, if_neg h2]
    have hsing : (String.singleton c).data = [c] := rfl
    have hd : (("KEY='\\" ++ String.singleton c ++ "'") : String).data
        = 'K' :: 'E' :: 'Y' :: '=' :: '\'' :: '\\' :: c :: '\'' :: [] := by
      simp [String.data_append, hsing]
    have hrun : runParser ('K' :: 'E' :: 'Y' :: '=' :: '\'' :: '\\' :: c :: '\'' :: [])
        .beforeName "" ""
        = ([], some (.cannotParse
            ("Invalid escaped sequence '\\" ++ c.toString ++ "' inside single-quoted value!"))) := by
      rw [runParser.eq_def]
      dsimp only
      rw [if_neg (by decide), if_neg (by decide), if_neg (by decide), if_pos (by decide)]
      rw [runParser.eq_def]
      dsimp only
      rw [if_neg (by decide), if_neg (by decide), if_pos (by decide)]
      rw [runParser.eq_def]
      dsimp only
      rw [if_neg (by decide), if_neg (by decide), if_pos (by decide)]
      rw [runParser.eq_def]
      dsimp only
      rw [if_pos rfl]
      rw [runParser.eq_def]
      dsimp only
      rw [if_neg (by decide), if_neg (by decide), if_pos rfl]
      rw [runParser.eq_def]
      dsimp only
      rw [if_neg (by decide), if_pos rfl]
      rw [hsq]
    rw [parseDotenvE, parseDotenv, hd, hrun]

/-- Witness for C6: the escape `\x` is invalid in a double-quoted value. -/
theorem claim6EscapesWitness :
    parseDotenvE ("KEY=\"\\" ++ String.singleton 'x' ++ "\"")
      = .error (.cannotParse "Invalid escape sequence '\\x' inside double-quoted value!") :=
  claim6Escapes.2.2.2.2.2.2.2.2.2.2.2.2.2.2.1 'x' (by decide)

end Denv

namespace Denv

/-! ### Union and literal conversion -/

/-- C1 (evaluation at the failing input): for `Literal["foo", 42]`, input
`"foo"` converts to the string option and input `"42"` to the int option;
but input `"bar"` does not fail with `CannotConvertToType` — the int
branch's conversion failure reaches `except NotImplemented`, which names the
builtin `NotImplemented` constant, so CPython raises the builtin
`TypeError` for catching a non-exception. -/
theorem claim1LiteralConversion :
    chooseValidatorAndConverter literalFooOr42Spec (.literal [.str "foo", .int 42])
      ⟨"LITERAL_VAR", some "foo"⟩ = .ok (.str "foo")
    ∧ chooseValidatorAndConverter literalFooOr42Spec (.literal [.str "foo", .int 42])
      ⟨"LITERAL_VAR", some "42"⟩ = .ok (.int 42)
    ∧ chooseValidatorAndConverter literalFooOr42Spec (.literal [.str "foo", .int 42])
      ⟨"LITERAL_VAR", some "bar"⟩ = .error (.typeErrorBuiltin catchNonExceptionMsg) := by
  decide

/-- First success of a union short-circuits, whatever errors the earlier
branches raised. -/
theorem convertUnionGoAppend (spec : VarSpec) (allB : List PyBaseType) (var : Var) :
    ∀ (pre : List PyBaseType) (t : PyBaseType) (post : List PyBaseType) (v : PyVal),
      (∀ b ∈ pre, ∃ e, dispatchBase spec b var = .error e) →
      dispatchBase spec t var = .ok v →
      convertUnionGo spec (pre ++ t :: post) allB var = .ok v
  | [], t, post, v, _, hok => by simp [convertUnionGo, hok]
  | b :: pre, t, post, v, hfail, hok => by
    obtain ⟨e, he⟩ := hfail b (List.mem_cons_self b pre)
    have hrest : ∀ b' ∈ pre, ∃ e', dispatchBase spec b' var = .error e' :=
      fun b' h' => hfail b' (List.mem_cons_of_mem _ h')
    simp only [List.cons_append, convertUnionGo, he]
    exact convertUnionGoAppend spec allB var pre t post v hrest hok

/-- When every branch fails, the union loop falls through to the aggregate
`CannotConvertToType` naming all of `allB`. -/
theorem convertUnionGoAllFail (spec : VarSpec) (allB : List PyBaseType) (var : Var) :
    ∀ bs : List PyBaseType,
      (∀ b ∈ bs, ∃ e, dispatchBase spec b var = .error e) →
      convertUnionGo spec bs allB var = .error (.cannotConvertToType (unionFailMsg allB var))
  | [], _ => by simp [convertUnionGo]
  | b :: bs, hfail => by
    obtain ⟨e, he⟩ := hfail b (List.mem_cons_self b bs)
    have hrest : ∀ b' ∈ bs, ∃ e', dispatchBase spec b' var = .error e' :=
      fun b' h' => hfail b' (List.mem_cons_of_mem _ h')
    simp only [convertUnionGo, he]
    exact convertUnionGoAllFail spec allB var bs hrest

/-- C2 (amended): union conversion tries each branch's converter in
declared order and returns the first success; if every branch fails it
raises `CannotConvertToType` naming all attempted branches; an exception
raised inside a union branch — a `NotImplemented` dispatch failure
included — is treated as a non-match rather than propagating; and in a
literal branch any branch failure raises the builtin `TypeError` of the
malformed `except NotImplemented` clause. -/
theorem claim2UnionConversion :
    (∀ (spec : VarSpec) (pre : List PyBaseType) (t : PyBaseType) (post : List PyBaseType)
       (var : Var) (v : PyVal),
       (∀ b ∈ pre, ∃ e, dispatchBase spec b var = .error e) →
       dispatchBase spec t var = .ok v →
       chooseValidatorAndConverter spec (.union (pre ++ t :: post)) var = .ok v)
    ∧ (∀ (spec : VarSpec) (bs : List PyBaseType) (var : Var),
       (∀ b ∈ bs, ∃ e, dispatchBase spec b var = .error e) →
       chooseValidatorAndConverter spec (.union bs) var
         = .error (.cannotConvertToType (unionFailMsg bs var)))
    ∧ (∀ (spec : VarSpec) (o : PyVal) (rest allOptions : List PyVal) (var : Var),
       (∃ e, dispatchBase spec (typeOfVal o) var = .error e) →
       convertLiteralGo spec (o :: rest) allOptions var
         = .error (.typeErrorBuiltin catchNonExceptionMsg)) := by
  refine ⟨?_, ?_, ?_⟩
  · intro spec pre t post var v hfail hok
    exact convertUnionGoAppend spec (pre ++ t :: post) var pre t post v hfail hok
  · intro spec bs var hfail
    exact convertUnionGoAllFail spec bs var bs hfail
  · intro spec o rest allOptions var hfail
    obtain ⟨e, he⟩ := hfail
    simp [convertLiteralGo, he]

/-- Counterexample to C2 as stated: in the union `int | None` (whose
branches are the classes `NoneType` and `int`), the `NoneType` branch
raises `error.NotImplemented`, yet the union call returns the int branch's
value — the `NotImplemented` dispatch failure is swallowed by
`except Exception`, not propagated. -/
theorem claim2UnionCounterexample :
    dispatchBase unionNoneIntSpec (.other "NoneType") ⟨"INT_OR_UNSET", some "42"⟩
      = .error (.notImplemented (notImplMsg unionNoneIntSpec))
    ∧ chooseValidatorAndConverter unionNoneIntSpec (.union [.other "NoneType", .int])
      ⟨"INT_OR_UNSET", some "42"⟩ = .ok (.int 42) := by
  decide

/-- Witness for C2: in `bool | int`, the failing bool branch is skipped and
the int branch's success is returned. -/
theorem claim2UnionConversionWitness :
    chooseValidatorAndConverter unionBoolIntSpec (.union [.bool, .int])
      ⟨"BOOL_OR_INT", some "42"⟩ = .ok (.int 42) := by
  refine claim2UnionConversion.1 unionBoolIntSpec [.bool] .int []
    ⟨"BOOL_OR_INT", some "42"⟩ (.int 42) ?_ rfl
  intro b hb
  simp only [List.mem_singleton] at hb
  subst hb
  exact ⟨_, rfl⟩

end Denv

namespace Denv

/-! ### Timedelta claims -/

set_option maxRecDepth 8192

/-- C3 (evaluation at the failing input): the timedelta token parser never
checks that the final number token was followed by a unit, so the dangling
number in `"5"` is silently dropped and a zero duration is returned, and
`"1h 5"` returns one hour — neither fails with `CannotParse` as the
grammar demands for a dangling number. -/
theorem claim3DanglingNumber :
    parseTimedelta "5" = .ok (Dec.ofInt 0)
    ∧ parseTimedelta "1h 5" = .ok (Dec.ofInt 3600000000)
    ∧ (Dec.ofInt 0).toRat = 0 := by
  refine ⟨?_, ?_, by norm_num [Dec.toRat, Dec.ofInt]⟩
  · have h : tdTokenizeGo "5" "5".data [] = .ok ["5"] := by
      rw [tdTokenizeGo.eq_def]
      rw [dif_neg (by decide), dif_neg (by decide), dif_pos (by decide)]
      all_goals decide
    rw [parseTimedelta, h]
    all_goals decide
  · have h : tdTokenizeGo "1h 5" "1h 5".data [] = .ok ["1", "h", "5"] := by
      rw [tdTokenizeGo.eq_def]
      rw [dif_neg (by decide), dif_neg (by decide), dif_neg (by decide), dif_neg (by decide),
          dif_neg (by decide), dif_neg (by decide), if_neg (by decide)]
      rw [tdTokenizeGo.eq_def]
      rw [dif_neg (by decide), dif_neg (by decide), dif_pos (by decide)]
      all_goals decide
    rw [parseTimedelta, h]
    all_goals decide

/-- C8: the duration mini-parser accumulates each number-unit pair,
whether the tokens touch or are blank-separated: `"1h30m"` and `"1h 30m"`
both yield exactly 90 minutes (in microseconds), while the duplicate unit
`"1h 1h"` and the wrong-order `"30m 1h"` both fail with `CannotParse`. -/
theorem claim8DurationAccumulation :
    parseTimedelta "1h30m" = .ok (Dec.ofInt 5400000000)
    ∧ parseTimedelta "1h 30m" = .ok (Dec.ofInt 5400000000)
    ∧ (Dec.ofInt 5400000000).toRat = (90 : ℚ) * 60 * 1000000
    ∧ parseTimedelta "1h 1h" = .error (tdDefaultErr "1h 1h")
    ∧ parseTimedelta "30m 1h" = .error (tdDefaultErr "30m 1h") := by
  refine ⟨?_, ?_, by norm_num [Dec.toRat, Dec.ofInt], ?_, ?_⟩
  · have h : tdTokenizeGo "1h30m" "1h30m".data [] = .ok ["1", "h", "30", "m"] := by
      rw [tdTokenizeGo.eq_def]
      rw [dif_neg (by decide), dif_neg (by decide), dif_neg (by decide), dif_neg (by decide),
          dif_neg (by decide), dif_neg (by decide), if_neg (by decide)]
      rw [tdTokenizeGo.eq_def]
      rw [dif_neg (by decide), dif_neg (by decide), dif_neg (by decide), dif_neg (by decide),
          dif_pos (by decide)]
      all_goals decide
    rw [parseTimedelta, h]
    all_goals decide
  · have h : tdTokenizeGo "1h 30m" "1h 30m".data [] = .ok ["1", "h", "30", "m"] := by
      rw [tdTokenizeGo.eq_def]
      rw [dif_neg (by decide), dif_neg (by decide), dif_neg (by decide), dif_neg (by decide),
          dif_neg (by decide), dif_neg (by decide), if_neg (by decide)]
      rw [tdTokenizeGo.eq_def]
      rw [dif_neg (by decide), dif_neg (by decide), dif_neg (by decide), dif_neg (by decide),
          dif_pos (by decide)]
      all_goals decide
    rw [parseTimedelta, h]
    all_goals decide
  · have h : tdTokenizeGo "1h 1h" "1h 1h".data [] = .ok ["1", "h", "1", "h"] := by
      rw [tdTokenizeGo.eq_def]
      rw [dif_neg (by decide), dif_neg (by decide), dif_neg (by decide), dif_neg (by decide),
          dif_neg (by decide), dif_neg (by decide), if_neg (by decide)]
      rw [tdTokenizeGo.eq_def]
      rw [dif_neg (by decide), dif_neg (by decide), dif_neg (by decide), dif_neg (by decide),
          dif_pos (by decide)]
      all_goals decide
    rw [parseTimedelta, h]
    all_goals decide
  · have h : tdTokenizeGo "30m 1h" "30m 1h".data [] = .ok ["30", "m", "1", "h"] := by
      rw [tdTokenizeGo.eq_def]
      rw [dif_neg (by decide), dif_neg (by decide), dif_neg (by decide), dif_neg (by decide),
          dif_neg (by decide), dif_neg (by decide), if_neg (by decide)]
      rw [tdTokenizeGo.eq_def]
      rw [dif_neg (by decide), dif_neg (by decide), dif_neg (by decide), dif_neg (by decide),
          dif_pos (by decide)]
      all_goals decide
    rw [parseTimedelta, h]
    all_goals decide

end Denv

namespace Denv

/-! ### Resolver claims -/

/-- C9: variable-name lookup first tries the exact case-sensitive map and
only on a miss falls back to the lower-cased name against the
case-insensitive map — an exact case-sensitive hit is never masked by the
insensitive fallback; and with `case="ignore"` the parsed name
`MiXeD_CaSe` matches a field declared `mixed_case`. -/
theorem claim9LookupOrder :
    (∀ (specs : List VarSpec) (name : String) (i j : Nat),
       csMap specs name = some i → ciMap specs (pyLower name) = some j →
       findSpecIdxForVarName specs name = some i)
    ∧ (∀ (specs : List VarSpec) (name : String) (j : Nat),
       csMap specs name = Option.none → ciMap specs (pyLower name) = some j →
       findSpecIdxForVarName specs name = some j)
    ∧ findSpecIdxForVarName [mixedCaseSpec] "MiXeD_CaSe" = some 0 := by
  refine ⟨?_, ?_, by decide⟩
  · intro specs name i j h1 _
    rw [findSpecIdxForVarName, h1]
  · intro specs name j h1 h2
    rw [findSpecIdxForVarName, h1]
    exact h2

/-- Witness for C9: the case-sensitive spec `API_KEY` wins the lookup even
though the case-insensitive spec `api_key` also matches the lowered name. -/
theorem claim9LookupOrderWitness :
    findSpecIdxForVarName demoSpecs "API_KEY" = some 0 :=
  claim9LookupOrder.1 demoSpecs "API_KEY" 0 1 (by decide) (by decide)

end Denv

namespace Denv

/-- Membership in an indexed spec list bounds the index and fixes the
entry. -/
theorem zipIdxFromMem :
    ∀ (l : List VarSpec) (n : Nat) (p : Nat × VarSpec), p ∈ zipIdxFrom n l →
      n ≤ p.1 ∧ p.1 - n < l.length ∧ p.2 = l.getD (p.1 - n) default
  | [], n, p, h => by simp [zipIdxFrom] at h
  | s :: l, n, p, h => by
    rw [zipIdxFrom] at h
    rcases List.mem_cons.mp h with h | h
    · subst h
      simp
    · obtain ⟨h1, h2, h3⟩ := zipIdxFromMem l (n + 1) p h
      refine ⟨by omega, by simp only [List.length_cons]; omega, ?_⟩
      have hidx : p.1 - n = (p.1 - (n + 1)) + 1 := by omega
      rw [hidx]
      simpa using h3

/-- The indices of an indexed spec list are pairwise distinct. -/
theorem zipIdxFromFstNodup :
    ∀ (l : List VarSpec) (n : Nat), ((zipIdxFrom n l).map Prod.fst).Nodup
  | [], n => by simp [zipIdxFrom]
  | s :: l, n => by
    rw [zipIdxFrom]
    simp only [List.map_cons]
    rw [List.nodup_cons]
    constructor
    · intro hmem
      obtain ⟨p, hp, hfst⟩ := List.mem_map.mp hmem
      have := (zipIdxFromMem l (n + 1) p hp).1
      omega
    · exact zipIdxFromFstNodup l (n + 1)

/-- Every index below the length appears, paired with its spec. -/
theorem zipIdxFromMemOf :
    ∀ (l : List VarSpec) (n i : Nat), i < l.length →
      (n + i, l.getD i default) ∈ zipIdxFrom n l
  | [], _, i, h => by simp at h
  | s :: l, n, 0, _ => by simp [zipIdxFrom]
  | s :: l, n, i + 1, h => by
    rw [zipIdxFrom]
    refine List.mem_cons_of_mem _ ?_
    have hrec := zipIdxFromMemOf l (n + 1) i (by simpa using h)
    have harith : n + (i + 1) = (n + 1) + i := by omega
    rw [harith]
    simpa using hrec

/-- Specification of the defaults pass over any indexed suffix of the
specs: it never raises when every spec's own name looks back up to its own
index (the documented uniqueness invariant of external names); it marks
exactly the unresolved-with-default indices it visits; it leaves every
untouched kwargs key alone; and each unresolved spec with a default ends
with its default stored under its field name (distinct field names keep
later writes away). -/
theorem applyDefaultsGoSpec (cfg : SpecCfg)
    (huniq : ∀ i, i < cfg.specs.length →
      findSpecIdxForVarName cfg.specs ((cfg.specs.getD i default).dotenvVarName) = some i)
    (hinj : ∀ i, i < cfg.specs.length → ∀ j, j < cfg.specs.length →
      (cfg.specs.getD i default).dataclassFieldName
        = (cfg.specs.getD j default).dataclassFieldName → i = j) :
    ∀ (pairs : List (Nat × VarSpec)) (st : ResolveState),
      (∀ p ∈ pairs, p.1 < cfg.specs.length ∧ p.2 = cfg.specs.getD p.1 default) →
      ((pairs.map Prod.fst).Nodup) →
      ∃ st', applyDefaultsGo cfg pairs st = .ok st'
        ∧ (∀ k : Nat, st'.resolved k
            = (st.resolved k || pairs.any (fun p => decide (p.1 = k) && p.2.defaultVal.isSome)))
        ∧ (∀ key : String, (∀ p ∈ pairs, p.2.dataclassFieldName ≠ key) →
            st'.kwargs key = st.kwargs key)
        ∧ (∀ i spec d, (i, spec) ∈ pairs → st.resolved i = false → spec.defaultVal = some d →
            st'.kwargs spec.dataclassFieldName = some d)
  | [], st, _, _ => ⟨st, rfl, by simp, fun _ _ => rfl, by simp⟩
  | (i, spec) :: pairs, st, hcons, hnd => by
    obtain ⟨hi, hspec⟩ := hcons (i, spec) (List.mem_cons_self _ _)
    have hi2 : i < cfg.specs.length := hi
    have hspec2 : spec = cfg.specs.getD i default := hspec
    have hconsRest : ∀ p ∈ pairs, p.1 < cfg.specs.length ∧ p.2 = cfg.specs.getD p.1 default :=
      fun p hp => hcons p (List.mem_cons_of_mem _ hp)
    have hndRest : (pairs.map Prod.fst).Nodup := by
      simpa using (List.nodup_cons.mp (by simpa using hnd)).2
    have hiNotRest : ∀ p ∈ pairs, p.1 ≠ i := by
      intro p hp heq
      have hmem : i ∈ pairs.map Prod.fst := List.mem_map.mpr ⟨p, hp, heq⟩
      exact (List.nodup_cons.mp (by simpa using hnd)).1 hmem
    by_cases hres : st.resolved i
    · obtain ⟨st', hgo, hres', hpres, hkw⟩ := applyDefaultsGoSpec cfg huniq hinj pairs st
        hconsRest hndRest
      refine ⟨st', ?_, ?_, ?_, ?_⟩
      · rw [applyDefaultsGo, if_pos hres]
        exact hgo
      · intro k
        rw [hres']
        by_cases hk : i = k
        · subst hk
          simp [hres]
        · simp [List.any_cons, hk]
      · intro key hkey
        exact hpres key (fun p hp => hkey p (List.mem_cons_of_mem _ hp))
      · intro i₂ spec₂ d h₂ hres₂ hd₂
        rcases List.mem_cons.mp h₂ with h₂ | h₂
        · cases h₂
          exact absurd hres (by simp [hres₂])
        · exact hkw i₂ spec₂ d h₂ hres₂ hd₂
    · have hresF : st.resolved i = false := by simpa using hres
      match hd : spec.defaultVal with
      | Option.none =>
        obtain ⟨st', hgo, hres', hpres, hkw⟩ := applyDefaultsGoSpec cfg huniq hinj pairs st
          hconsRest hndRest
        refine ⟨st', ?_, ?_, ?_, ?_⟩
        · rw [applyDefaultsGo, if_neg hres, hd]
          exact hgo
        · intro k
          rw [hres']
          by_cases hk : i = k
          · subst hk
            simp [List.any_cons, hd]
          · simp [List.any_cons, hk]
        · intro key hkey
          exact hpres key (fun p hp => hkey p (List.mem_cons_of_mem _ hp))
        · intro i₂ spec₂ d h₂ hres₂ hd₂
          rcases List.mem_cons.mp h₂ with h₂ | h₂
          · cases h₂
            rw [hd] at hd₂
            cases hd₂
          · exact hkw i₂ spec₂ d h₂ hres₂ hd₂
      | some d =>
        have hfind : findSpecIdxForVarName cfg.specs spec.dotenvVarName = some i := by
          rw [hspec2]
          exact huniq i hi2
        obtain ⟨st', hgo, hres', hpres, hkw⟩ := applyDefaultsGoSpec cfg huniq hinj pairs
          ⟨fun k => if k = spec.dataclassFieldName then some d else st.kwargs k,
           fun j' => if j' = i then true else st.resolved j'⟩
          hconsRest hndRest
        have hfieldRest : ∀ p ∈ pairs, p.2.dataclassFieldName ≠ spec.dataclassFieldName := by
          intro p hp heq
          obtain ⟨hp1, hp2⟩ := hconsRest p hp
          rw [hp2, hspec2] at heq
          exact hiNotRest p hp (hinj p.1 hp1 i hi2 heq)
        refine ⟨st', ?_, ?_, ?_, ?_⟩
        · rw [applyDefaultsGo, if_neg hres, hd, hfind]
          exact hgo
        · intro k
          rw [hres']
          by_cases hk : i = k
          · subst hk
            simp [List.any_cons, hd]
          · simp only [List.any_cons]
            have : (if k = i then true else st.resolved k) = st.resolved k := by
              rw [if_neg (fun h => hk h.symm)]
            rw [this]
            simp [hk]
        · intro key hkey
          rw [hpres key (fun p hp => hkey p (List.mem_cons_of_mem _ hp))]
          dsimp only
          rw [if_neg ?_]
          intro heq
          exact hkey (i, spec) (List.mem_cons_self _ _) heq.symm
        · intro i₂ spec₂ d₂ h₂ hres₂ hd₂
          rcases List.mem_cons.mp h₂ with h₂ | h₂
          · cases h₂
            rw [hd] at hd₂
            cases hd₂
            rw [hpres spec.dataclassFieldName hfieldRest]
            dsimp only
            rw [if_pos rfl]
          · have hne : i₂ ≠ i := hiNotRest (i₂, spec₂) h₂
            refine hkw i₂ spec₂ d₂ h₂ ?_ hd₂
            dsimp only
            rw [if_neg hne]
            exact hres₂

end Denv

namespace Denv

/-- For an in-range index, the indexed-spec scan finds a default exactly
when that spec declares one. -/
theorem zipIdxAnyDefault (specs : List VarSpec) (k : Nat) (hk : k < specs.length) :
    (zipIdxFrom 0 specs).any (fun p => decide (p.1 = k) && p.2.defaultVal.isSome)
      = ((specs.getD k default).defaultVal).isSome := by
  cases hs : ((specs.getD k default).defaultVal).isSome
  · rw [List.any_eq_false]
    intro p hp
    by_cases hpk : p.1 = k
    · have h3 := (zipIdxFromMem specs 0 p hp).2.2
      rw [Nat.sub_zero, hpk] at h3
      have hps : p.2.defaultVal.isSome = false := by
        rw [h3]
        exact hs
      simp [hpk, hps]
    · simp [hpk]
  · rw [List.any_eq_true]
    refine ⟨(k, specs.getD k default), ?_,
      by simp only [Bool.and_eq_true, decide_eq_true_eq, eq_self_iff_true, true_and]; exact hs⟩
    have := zipIdxFromMemOf specs 0 k hk
    simpa using this

/-- C7: under the documented invariants that external names look back up to
their own spec and dataclass field names are distinct, once the variable
stream is exhausted every still-unresolved spec that declares a default
receives that default (stored under its field name) and is marked
resolved; if any spec remains without a value the run fails with
`VariableMissing` naming the still-missing specs — whose message lists
both the dataclass field identifiers and the expected dotenv variable
names; in particular a schema with a required, defaultless field fails
exactly that way on input lacking the variable. -/
theorem claim7DefaultsAndMissing (cfg : SpecCfg)
    (huniq : ∀ i, i < cfg.specs.length →
      findSpecIdxForVarName cfg.specs ((cfg.specs.getD i default).dotenvVarName) = some i)
    (hinj : ∀ i, i < cfg.specs.length → ∀ j, j < cfg.specs.length →
      (cfg.specs.getD i default).dataclassFieldName
        = (cfg.specs.getD j default).dataclassFieldName → i = j) :
    (∀ (st : ResolveState) (i : Nat) (d : PyVal), i < cfg.specs.length →
       st.resolved i = false → (cfg.specs.getD i default).defaultVal = some d →
       ∃ st', applyDefaultsGo cfg (zipIdxFrom 0 cfg.specs) st = .ok st'
         ∧ st'.resolved i = true
         ∧ st'.kwargs ((cfg.specs.getD i default).dataclassFieldName) = some d)
    ∧ (∀ st : ResolveState, entryMissing cfg st ≠ [] →
       finishResolution cfg st
         = .error (.variableMissing (missingMsg cfg.dataclsName (entryMissing cfg st))))
    ∧ fromChars requiredCfg ""
        = .error (.variableMissing
            "The dataclass 'Config' contains the fields 'api_key', but the variables 'API_KEY' are not set in the dotenv!") := by
  have hcons : ∀ p ∈ zipIdxFrom 0 cfg.specs,
      p.1 < cfg.specs.length ∧ p.2 = cfg.specs.getD p.1 default := by
    intro p hp
    obtain ⟨_, h2, h3⟩ := zipIdxFromMem cfg.specs 0 p hp
    rw [Nat.sub_zero] at h2 h3
    exact ⟨h2, h3⟩
  refine ⟨?_, ?_, ?_⟩
  · intro st i d hi hres hd
    obtain ⟨st', hgo, hres', hpres, hkw⟩ := applyDefaultsGoSpec cfg huniq hinj
      (zipIdxFrom 0 cfg.specs) st hcons (zipIdxFromFstNodup _ _)
    refine ⟨st', hgo, ?_, ?_⟩
    · rw [hres' i, zipIdxAnyDefault cfg.specs i hi, hd]
      simp
    · refine hkw i (cfg.specs.getD i default) d ?_ hres hd
      have := zipIdxFromMemOf cfg.specs 0 i hi
      simpa using this
  · intro st hne
    obtain ⟨st', hgo, hres', hpres, hkw⟩ := applyDefaultsGoSpec cfg huniq hinj
      (zipIdxFrom 0 cfg.specs) st hcons (zipIdxFromFstNodup _ _)
    have hmiss : missingSpecs cfg st' = entryMissing cfg st := by
      rw [missingSpecs, entryMissing]
      congr 1
      apply List.filter_congr
      intro i hi
      have hi' : i < cfg.specs.length := List.mem_range.mp hi
      rw [hres' i, zipIdxAnyDefault cfg.specs i hi']
      cases hr : st.resolved i <;>
        cases hds : ((cfg.specs.getD i default).defaultVal).isSome <;> simp
    rw [finishResolution, hgo]
    dsimp only
    rw [hmiss, if_neg (fun h => hne (List.isEmpty_iff.mp h))]
  · rfl

/-- Witness for C7: in a schema with a defaulted field `a` and a required
field `b`, the defaults pass marks `a` resolved and stores its default. -/
theorem claim7DefaultsAndMissingWitness :
    ∃ st', applyDefaultsGo defaultsCfg (zipIdxFrom 0 defaultsCfg.specs) initState = .ok st'
      ∧ st'.resolved 0 = true
      ∧ st'.kwargs "a" = some (.str "fallback") :=
  (claim7DefaultsAndMissing defaultsCfg (by decide) (by decide)).1
    initState 0 (.str "fallback") (by decide) rfl rfl

end Denv

namespace Denv

/-- The per-`Var` loop processes a concatenated stream sequentially. -/
theorem resolveVarsAppend (cfg : SpecCfg) :
    ∀ (vs ws : List Var) (st : ResolveState),
      resolveVars cfg (vs ++ ws) st
        = match resolveVars cfg vs st with
          | .error e => .error e
          | .ok st' => resolveVars cfg ws st'
  | [], ws, st => rfl
  | v :: vs, ws, st => by
    rw [List.cons_append, resolveVars, resolveVars]
    cases findSpecIdxForVarName cfg.specs v.name with
    | none =>
      by_cases hinc : cfg.allowIncomplete
      · rw [if_pos hinc, if_pos hinc]
        exact resolveVarsAppend cfg vs ws st
      · rw [if_neg hinc, if_neg hinc]
    | some idx =>
      dsimp only
      cases chooseValidatorAndConverter (cfg.specs.getD idx default)
          (cfg.specs.getD idx default).fieldType v with
      | error e => rfl
      | ok value =>
        dsimp only
        exact resolveVarsAppend cfg vs ws _

/-- No converter error is a `VariableDuplicate`. -/
theorem dispatchBaseNoDup (spec : VarSpec) (b : PyBaseType) (var : Var) (e : PyErr)
    (h : dispatchBase spec b var = .error e) : e.isVariableDuplicateB = false := by
  rcases var with ⟨nm, val⟩
  cases b <;> cases val <;>
    simp only [dispatchBase, convertStr, convertBool, convertInt, convertFloat,
      convertUnset] at h <;>
    first
      | (cases h; rfl)
      | (repeat' split at h) <;> first | (cases h; rfl) | cases h

/-- The union loop's only surfaced error is the aggregate
`CannotConvertToType`. -/
theorem convertUnionGoNoDup (spec : VarSpec) (var : Var) :
    ∀ (bs allB : List PyBaseType) (e : PyErr),
      convertUnionGo spec bs allB var = .error e → e.isVariableDuplicateB = false
  | [], allB, e, h => by
    rw [convertUnionGo] at h
    cases h
    rfl
  | b :: bs, allB, e, h => by
    rw [convertUnionGo] at h
    cases hb : dispatchBase spec b var with
    | ok v => rw [hb] at h; cases h
    | error e' => rw [hb] at h; exact convertUnionGoNoDup spec var bs allB e h

/-- The literal loop surfaces only the builtin `TypeError`, the
`AttributeError` of `options_str`, or the (empty-literal)
`CannotConvertToType`. -/
theorem convertLiteralGoNoDup (spec : VarSpec) (var : Var) :
    ∀ (os allO : List PyVal) (e : PyErr),
      convertLiteralGo spec os allO var = .error e → e.isVariableDuplicateB = false
  | [], allO, e, h => by
    rw [convertLiteralGo] at h
    cases h
    cases allO <;> rfl
  | o :: os, allO, e, h => by
    rw [convertLiteralGo] at h
    cases ho : dispatchBase spec (typeOfVal o) var with
    | ok v =>
      rw [ho] at h
      dsimp only at h
      by_cases hcmp : pyEq o v
      · rw [if_pos hcmp] at h
        cases h
      · rw [if_neg hcmp] at h
        exact convertLiteralGoNoDup spec var os allO e h
    | error e' =>
      rw [ho] at h
      dsimp only at h
      cases h
      rfl

/-- No conversion dispatch ever surfaces `VariableDuplicate`. -/
theorem chooseVCNoDup (spec : VarSpec) (t : PyType) (var : Var) (e : PyErr)
    (h : chooseValidatorAndConverter spec t var = .error e) :
    e.isVariableDuplicateB = false := by
  cases t with
  | base b => exact dispatchBaseNoDup spec b var e h
  | union bs => exact convertUnionGoNoDup spec var bs bs e h
  | literal os => exact convertLiteralGoNoDup spec var os os e h

/-- The per-`Var` loop surfaces only `VariableNotSpecified` and conversion
errors. -/
theorem resolveVarsNoDup (cfg : SpecCfg) :
    ∀ (vs : List Var) (st : ResolveState) (e : PyErr),
      resolveVars cfg vs st = .error e → e.isVariableDuplicateB = false
  | [], st, e, h => by cases h
  | v :: vs, st, e, h => by
    rw [resolveVars] at h
    cases hf : findSpecIdxForVarName cfg.specs v.name with
    | none =>
      rw [hf] at h
      by_cases hinc : cfg.allowIncomplete
      · rw [if_pos hinc] at h
        exact resolveVarsNoDup cfg vs st e h
      · rw [if_neg hinc] at h
        cases h
        rfl
    | some idx =>
      rw [hf] at h
      dsimp only at h
      cases hc : chooseValidatorAndConverter (cfg.specs.getD idx default)
          (cfg.specs.getD idx default).fieldType v with
      | error e' =>
        rw [hc] at h
        cases h
        exact chooseVCNoDup _ _ _ _ hc
      | ok value =>
        rw [hc] at h
        exact resolveVarsNoDup cfg vs _ e h

/-- The defaults pass surfaces only `VariableNotSpecified`. -/
theorem applyDefaultsGoNoDup (cfg : SpecCfg) :
    ∀ (pairs : List (Nat × VarSpec)) (st : ResolveState) (e : PyErr),
      applyDefaultsGo cfg pairs st = .error e → e.isVariableDuplicateB = false
  | [], st, e, h => by cases h
  | (i, spec) :: pairs, st, e, h => by
    rw [applyDefaultsGo] at h
    by_cases hres : st.resolved i
    · rw [if_pos hres] at h
      exact applyDefaultsGoNoDup cfg pairs st e h
    · rw [if_neg hres] at h
      cases hd : spec.defaultVal with
      | none =>
        rw [hd] at h
        exact applyDefaultsGoNoDup cfg pairs st e h
      | some d =>
        rw [hd] at h
        cases hf : findSpecIdxForVarName cfg.specs spec.dotenvVarName with
        | none =>
          rw [hf] at h
          cases h
          rfl
        | some j =>
          rw [hf] at h
          exact applyDefaultsGoNoDup cfg pairs _ e h

/-- The post-stream phase surfaces only defaults-pass errors and
`VariableMissing`. -/
theorem finishResolutionNoDup (cfg : SpecCfg) (st : ResolveState) (e : PyErr)
    (h : finishResolution cfg st = .error e) : e.isVariableDuplicateB = false := by
  rw [finishResolution] at h
  cases hgo : applyDefaultsGo cfg (zipIdxFrom 0 cfg.specs) st with
  | error e' =>
    rw [hgo] at h
    cases h
    exact applyDefaultsGoNoDup cfg _ st e hgo
  | ok st' =>
    rw [hgo] at h
    dsimp only at h
    by_cases hm : (missingSpecs cfg st').isEmpty
    · rw [if_pos hm] at h
      cases h
    · rw [if_neg hm] at h
      cases h
      rfl

/-- C10: resolution never fails on a duplicate variable. Appending a final
occurrence of a variable that resolves to spec `i` always succeeds —
whatever was resolved before — and stores that occurrence's converted
value under the field name (last write wins); and no code path of the whole
pipeline ever surfaces the `VariableDuplicate` error. -/
theorem claim10DuplicatesLastWriteWins :
    (∀ (cfg : SpecCfg) (vs : List Var) (var : Var) (i : Nat) (v : PyVal)
       (st st' : ResolveState),
       findSpecIdxForVarName cfg.specs var.name = some i →
       chooseValidatorAndConverter (cfg.specs.getD i default)
         (cfg.specs.getD i default).fieldType var = .ok v →
       resolveVars cfg vs st = .ok st' →
       ∃ st'', resolveVars cfg (vs ++ [var]) st = .ok st''
         ∧ st''.kwargs ((cfg.specs.getD i default).dataclassFieldName) = some v
         ∧ st''.resolved i = true)
    ∧ (∀ (cfg : SpecCfg) (s : String) (e : PyErr),
       fromChars cfg s = .error e → e.isVariableDuplicateB = false) := by
  constructor
  · intro cfg vs var i v st st' hfind hconv hok
    rw [resolveVarsAppend cfg vs [var] st, hok]
    dsimp only
    rw [resolveVars.eq_def]
    dsimp only
    rw [hfind]
    dsimp only
    rw [hconv]
    dsimp only
    refine ⟨_, rfl, ?_, ?_⟩
    · dsimp only
      rw [if_pos rfl]
    · dsimp only
      rw [if_pos rfl]
  · intro cfg s e h
    rw [fromChars] at h
    cases hrv : resolveVars cfg (parseDotenv s).1 initState with
    | error e' =>
      rw [hrv] at h
      cases h
      exact resolveVarsNoDup cfg _ _ e hrv
    | ok st =>
      rw [hrv] at h
      dsimp only at h
      cases hp : (parseDotenv s).2 with
      | none =>
        rw [hp] at h
        exact finishResolutionNoDup cfg st e h
      | some pe =>
        rw [hp] at h
        cases h
        cases pe <;> rfl

/-- Witness for C10: with the single int field `x: int`, the stream
`X=1` then `X=2` resolves without a duplicate error and `x` gets `2`. -/
theorem claim10DuplicatesLastWriteWinsWitness :
    ∃ st'', resolveVars dupCfg ([⟨"X", some "1"⟩] ++ [⟨"X", some "2"⟩]) initState = .ok st''
      ∧ st''.kwargs "x" = some (.int 2)
      ∧ st''.resolved 0 = true :=
  claim10DuplicatesLastWriteWins.1 dupCfg [⟨"X", some "1"⟩] ⟨"X", some "2"⟩ 0 (.int 2)
    initState _ rfl rfl rfl

end Denv
